import Mathlib

/-!
Verification development for the tokenized line classifier and positional
field recoverer of the inventory/purchase-order report parser
(`src/api/parse.ts`, the primary tiered variant).

Lines and tokens are modelled as `List Char`.  JavaScript numbers arising
from `parseFloat` on decimal tokens are modelled exactly as rationals;
`parseInt` results on digit-leading tokens as naturals; calendar dates as
day numbers (`ℤ`, proleptic Gregorian).
-/

namespace SueParse

abbrev Str := List Char

/-! ### Character classes (JS regex classes, ASCII) -/

def isWS (c : Char) : Bool :=
  c = ' ' ∨ c = '\t' ∨ c = '\n' ∨ c = '\r' ∨ c = '\x0c' ∨ c = '\x0b'

def isDigitCh (c : Char) : Bool := c.isDigit

def isAlphaCh (c : Char) : Bool := c.isAlpha

def isAlnumCh (c : Char) : Bool := c.isAlpha || c.isDigit

def isWordCh (c : Char) : Bool := c.isAlpha || c.isDigit || c = '_'

def isDigitDotCh (c : Char) : Bool := c.isDigit || c = '.'

def lowerEq (a b : Char) : Bool := a.toLower = b.toLower

/-! ### Trimming, splitting and joining -/

def trimR (l : Str) : Str := (l.reverse.dropWhile isWS).reverse

def trim (l : Str) : Str := (trimR l).dropWhile isWS

/-- Fuel-indexed splitter on runs of whitespace; the fuel only needs to
dominate the length of the list. -/
def wordsF : ℕ → Str → List Str
  | 0, _ => []
  | _ + 1, [] => []
  | fuel + 1, c :: cs =>
      if isWS c then wordsF fuel cs
      else ((c :: cs).takeWhile (fun d => !isWS d)) ::
           wordsF fuel ((c :: cs).dropWhile (fun d => !isWS d))

/-- Split on runs of whitespace (the effect of `trimmed.split(/\s+/)` on a
trimmed line): the list of maximal non-whitespace runs. -/
def words (l : Str) : List Str := wordsF l.length l

/-- Split a text into lines at every newline character, keeping empty
segments (the behaviour of `text.split('\n')`). -/
def splitNL (l : Str) : List Str :=
  match l with
  | [] => [[]]
  | c :: cs =>
      if c = '\n' then [] :: splitNL cs
      else match splitNL cs with
           | [] => [[c]]
           | w :: ws => (c :: w) :: ws

/-- Join tokens with single spaces (`tokens.join(' ')`). -/
def joinSp (ts : List Str) : Str :=
  match ts with
  | [] => []
  | [t] => t
  | t :: ts => t ++ ' ' :: joinSp ts

/-- Token at an index, empty when out of range. -/
def tokAt (ts : List Str) (i : ℕ) : Str := ts.getD i []

/-! ### Case-insensitive prefix / containment / whole-word search -/

def isPrefixCI : Str → Str → Bool
  | [], _ => true
  | _ :: _, [] => false
  | p :: ps, c :: cs => lowerEq p c && isPrefixCI ps cs

def isPrefixExact : Str → Str → Bool
  | [], _ => true
  | _ :: _, [] => false
  | p :: ps, c :: cs => (p = c) && isPrefixExact ps cs

def containsCI (pat : Str) : Str → Bool
  | [] => pat.isEmpty
  | c :: cs => isPrefixCI pat (c :: cs) || containsCI pat cs

def containsExact (pat : Str) : Str → Bool
  | [] => pat.isEmpty
  | c :: cs => isPrefixExact pat (c :: cs) || containsExact pat cs

def eqCI (a b : Str) : Bool := isPrefixCI a b && isPrefixCI b a

/-- Word-boundary test used for `\b` next to the matched word. -/
def boundaryOK : Option Char → Bool
  | none => true
  | some c => !isWordCh c

/-- Case-insensitive whole-word search, the effect of `/\bword\b/i.test`
for a pattern made of word characters. -/
def findWordCI (pat : Str) (prev : Option Char) : Str → Bool
  | [] => false
  | c :: cs =>
      (boundaryOK prev && isPrefixCI pat (c :: cs) &&
        boundaryOK (((c :: cs).drop pat.length).head?)) ||
      findWordCI pat (some c) cs

/-! ### Token shape predicates (from the regexes in `parse.ts`) -/

/-- Remove one trailing dash (the replace of the anchored trailing-dash
pattern by the empty string). -/
def stripDash (t : Str) : Str :=
  match t.reverse with
  | c :: r => if c = '-' then r.reverse else t
  | [] => t

/-- The shape `/^\d+\.\d+$/`: digits, one dot, digits. -/
def isFloatRaw (t : Str) : Bool :=
  let d1 := t.takeWhile isDigitCh
  let r := t.dropWhile isDigitCh
  (!d1.isEmpty) &&
    match r with
    | '.' :: r2 => (!r2.isEmpty) && r2.all isDigitCh
    | _ => false

/-- The source `isFloat`: strip one trailing dash, then the decimal shape. -/
def isFloatTok (t : Str) : Bool := isFloatRaw (stripDash t)

/-- The source `isInteger`: `/^\d+$/`. -/
def isIntRaw (t : Str) : Bool := (!t.isEmpty) && t.all isDigitCh

/-- The source `isProductNumber`: `/^[A-Z0-9]{2,8}$/i`. -/
def isProductNumber (t : Str) : Bool :=
  decide (2 ≤ t.length) && decide (t.length ≤ 8) && t.all isAlnumCh

/-- The source `isSlotCode`: `/^[A-Z]{1,3}\d{3,5}$|^COOLER$|^FREEZE$|^DRY$/i`. -/
def isSlotCode (t : Str) : Bool :=
  (let a := t.takeWhile isAlphaCh
   let d := t.dropWhile isAlphaCh
   decide (1 ≤ a.length) && decide (a.length ≤ 3) &&
   decide (3 ≤ d.length) && decide (d.length ≤ 5) && d.all isDigitCh) ||
  eqCI t ("COOLER".toList) || eqCI t ("FREEZE".toList) || eqCI t ("DRY".toList)

/-- Nonempty all-alphanumeric token: `/^[A-Z0-9]+$/i`. -/
def isAlnumTok (t : Str) : Bool := (!t.isEmpty) && t.all isAlnumCh

/-- Exactly five digits: `/^\d{5}$/`. -/
def is5Digits (t : Str) : Bool := decide (t.length = 5) && t.all isDigitCh

/-- Exactly four digits: `/^\d{4}$/`. -/
def is4Digits (t : Str) : Bool := decide (t.length = 4) && t.all isDigitCh

/-- One to five digits: `/^\d{1,5}$/`. -/
def isInt1to5 (t : Str) : Bool :=
  decide (1 ≤ t.length) && decide (t.length ≤ 5) && t.all isDigitCh

/-- The date shape `/^\d{2}\/\d{2}\/\d{2}$/`. -/
def isDateShapeTok (t : Str) : Bool :=
  match t with
  | [a, b, s1, c, d, s2, e, f] =>
      isDigitCh a && isDigitCh b && (s1 = '/') && isDigitCh c && isDigitCh d &&
      (s2 = '/') && isDigitCh e && isDigitCh f
  | _ => false

/-- The time-of-day shape `/^\d{2}:\d{2}$/` as a whole token. -/
def isTimeShapeTok (t : Str) : Bool :=
  match t with
  | [a, b, s, c, d] => isDigitCh a && isDigitCh b && (s = ':') && isDigitCh c && isDigitCh d
  | _ => false

/-! ### Substring scanners (unanchored `String.match(..., 'g')`) -/

/-- A date-shaped substring starts here. -/
def dateAt (l : Str) : Bool := isDateShapeTok (l.take 8)

/-- A time-shaped substring starts here. -/
def timeAt (l : Str) : Bool := isTimeShapeTok (l.take 5)

/-- Fuel-indexed date scanner. -/
def scanDatesF : ℕ → Str → List Str
  | 0, _ => []
  | _ + 1, [] => []
  | fuel + 1, c :: cs =>
      if dateAt (c :: cs) then (c :: cs).take 8 :: scanDatesF fuel ((c :: cs).drop 8)
      else scanDatesF fuel cs

/-- All non-overlapping matches of `\d{2}\/\d{2}\/\d{2}`, left to right. -/
def scanDates (l : Str) : List Str := scanDatesF l.length l

/-- Fuel-indexed time scanner. -/
def scanTimesF : ℕ → Str → List Str
  | 0, _ => []
  | _ + 1, [] => []
  | fuel + 1, c :: cs =>
      if timeAt (c :: cs) then (c :: cs).take 5 :: scanTimesF fuel ((c :: cs).drop 5)
      else scanTimesF fuel cs

/-- All non-overlapping matches of `\d{2}:\d{2}`, left to right. -/
def scanTimes (l : Str) : List Str := scanTimesF l.length l

/-- Five digits at this position with a word boundary after them. -/
def fiveRunAt (l : Str) : Bool :=
  decide ((l.take 5).length = 5) && (l.take 5).all isDigitCh &&
  boundaryOK ((l.drop 5).head?)

/-- First match of `/\b(\d{5})\b/`: a five-digit run delimited by word
boundaries, scanning left to right. -/
def find5Run (prev : Option Char) : Str → Option Str
  | [] => none
  | c :: cs =>
      if boundaryOK prev && fiveRunAt (c :: cs) then some ((c :: cs).take 5)
      else find5Run (some c) cs

/-! ### Numeric value models -/

def digitsToNat (l : Str) : ℕ :=
  l.foldl (fun acc c => 10 * acc + (c.toNat - 48)) 0

/-- JS `parseInt(t, 10)` on a digit-leading token: value of the leading
digit run. -/
def parseIntJS (t : Str) : ℕ := digitsToNat (t.takeWhile isDigitCh)

/-- JS `parseFloat(t)` on a token whose longest valid numeric prefix is
`digits` or `digits.digits`: the exact rational value of that prefix. -/
def parseFloatJS (t : Str) : ℚ :=
  let ip := t.takeWhile isDigitCh
  let rest := t.dropWhile isDigitCh
  match rest with
  | '.' :: r2 =>
      let frac := r2.takeWhile isDigitCh
      (digitsToNat ip : ℚ) + (digitsToNat frac : ℚ) / (10 : ℚ) ^ frac.length
  | _ => (digitsToNat ip : ℚ)

/-! ### Calendar dates as day numbers

`new Date(y, m-1, d)` normalizes out-of-range months and days; the value is
modelled as a day number in the proleptic Gregorian calendar. -/

/-- Day number of the civil date `y-m-d` for `1 ≤ m ≤ 12` (days since
1970-01-01, standard civil-from-days construction). -/
def civilDay (y : ℤ) (m : ℕ) (d : ℤ) : ℤ :=
  let y1 : ℤ := if m ≤ 2 then y - 1 else y
  let era : ℤ := (if y1 ≥ 0 then y1 else y1 - 399) / 400
  let yoe : ℤ := y1 - era * 400
  let mp : ℤ := ((m : ℤ) + 9) % 12
  let doy : ℤ := (153 * mp + 2) / 5 + d - 1
  let doe : ℤ := yoe * 365 + yoe / 4 - yoe / 100 + doy
  era * 146097 + doe - 719468

/-- Day number of `new Date(y, m0, d)` with a 0-based month `m0` that may
be out of range (JS month/day normalization). -/
def jsDateDay (y : ℤ) (m0 : ℤ) (d : ℤ) : ℤ :=
  let ty : ℤ := y + Int.fdiv m0 12
  let tm : ℕ := (Int.emod m0 12).toNat
  civilDay ty (tm + 1) 1 + (d - 1)

/-- The source `parseDate` on a `MM/DD/YY` string: `some` day number of
`new Date(2000+yy, mm-1, dd)` when the shape matches. -/
def parseDateNum (t : Str) : Option ℤ :=
  match t with
  | [a, b, s1, c, d, s2, e, f] =>
      if isDigitCh a && isDigitCh b && (s1 = '/') && isDigitCh c && isDigitCh d &&
         (s2 = '/') && isDigitCh e && isDigitCh f then
        some (jsDateDay (2000 + (digitsToNat [e, f] : ℤ)) ((digitsToNat [a, b] : ℤ) - 1)
          (digitsToNat [c, d] : ℤ))
      else none
  | _ => none

/-- The source `calculateDaysUntilDue`: whole days from the report date to
the due date, `0` when the due date does not parse. -/
def calculateDaysUntilDue (dueDate : Str) (reportDate : ℤ) : ℤ :=
  match parseDateNum dueDate with
  | none => 0
  | some due => due - reportDate

/-! ### Data model -/

inductive Confidence where
  | high | medium | low
  deriving DecidableEq, Repr

inductive SOStatus where
  | ready | doq | order
  deriving DecidableEq, Repr

structure CurrentVendor where
  id : Str
  name : Str
  deriving DecidableEq, Repr

structure ParsedItem where
  vendorId : Str
  vendorName : Str
  prodNo : Str
  specialOrder : Bool
  unit : Str
  size : Str
  brand : Str
  description : Str
  ytd : Option ℕ
  avg : Option ℕ
  avail : Option ℕ
  onOrder : Option ℕ
  daysSply : Option ℚ
  lndCst : Option ℚ
  mrkCst : Option ℚ
  slot : Option Str
  ip : Option ℚ
  confidence : Confidence
  numericColumns : ℕ
  rawLine : Str
  parseNotes : List Str
  deriving DecidableEq

structure PurchaseOrder where
  poNumber : Str
  vendorId : Str
  vendorName : Str
  dueDate : Str
  totalCases : ℕ
  status : Str
  edi : Option Bool
  appointment : Option Str
  pickUp : Option Str
  entered : Option Str
  daysUntilDue : ℤ
  isUrgent : Bool
  urgentReasons : List Str
  deriving DecidableEq, Repr

structure SpecialOrder where
  prodNo : Str
  description : Str
  custNo : Str
  customerName : Str
  dateEntered : Str
  dateDoq : Option Str
  dateDue : Option Str
  poNumber : Option Str
  qtyOrdered : ℕ
  onHand : ℕ
  status : SOStatus
  vendorId : Str
  vendorName : Str
  deriving DecidableEq, Repr

structure TailFixed where
  ip : Option ℚ
  slot : Option Str
  mrkCst : Option ℚ
  lndCst : Option ℚ
  conf : Confidence
  notes : List Str
  consumed : ℕ
  r : ℕ
  deriving DecidableEq

structure TailParseResult where
  ip : Option ℚ
  slot : Option Str
  mrkCst : Option ℚ
  lndCst : Option ℚ
  daysSply : Option ℚ
  onOrder : Option ℕ
  avail : Option ℕ
  avg : Option ℕ
  confidence : Confidence
  numericColumns : ℕ
  notes : List Str
  consumedCount : ℕ
  deriving DecidableEq

structure FrontParseResult where
  prodNo : Str
  specialOrder : Bool
  unit : Str
  size : Str
  brand : Str
  description : Str
  ytd : Option ℕ
  deriving DecidableEq

/-! ### Noise patterns (`SKIP_PATTERNS`), each anchored at the start of the
trimmed line, case-insensitive where the source regex carries the i flag. -/

/-- Prefix then optional whitespace then a colon (patterns of the form
word, whitespace star, colon). -/
def prefixWSColon (pre : Str) (l : Str) : Bool :=
  isPrefixCI pre l &&
    match (l.drop pre.length).dropWhile isWS with
    | ':' :: _ => true
    | _ => false

/-- Prefix, mandatory whitespace, then a second prefix. -/
def prefixWSPrefix (p1 p2 : Str) (l : Str) : Bool :=
  isPrefixCI p1 l &&
    (let r := l.drop p1.length
     (match r with | c :: _ => isWS c | [] => false) &&
     isPrefixCI p2 (r.dropWhile isWS))

/-- Runs of whitespace-separated stars after an initial star. -/
def starRun : ℕ → Str → Bool
  | 0, _ => true
  | n + 1, l =>
      match l.dropWhile isWS with
      | '*' :: r => starRun n r
      | _ => false

/-- Five stars separated by optional whitespace. -/
def starsPat (l : Str) : Bool :=
  match l with
  | '*' :: r => starRun 4 r
  | _ => false

/-- The column-header pattern: Prod#, whitespace, Unt, whitespace, Size. -/
def prodUntSizePat (l : Str) : Bool :=
  isPrefixCI ("Prod#".toList) l &&
    (let r := l.drop 5
     (match r with | c :: _ => isWS c | [] => false) &&
     (let r2 := r.dropWhile isWS
      isPrefixCI ("Unt".toList) r2 &&
        (let r3 := r2.drop 3
         (match r3 with | c :: _ => isWS c | [] => false) &&
         isPrefixCI ("Size".toList) (r3.dropWhile isWS))))

/-- The vendor-subtotal pattern: Vnd, whitespace, digits, whitespace,
SubTot. -/
def vndSubTotPat (l : Str) : Bool :=
  isPrefixCI ("Vnd".toList) l &&
    (let r := l.drop 3
     (match r with | c :: _ => isWS c | [] => false) &&
     (let r2 := r.dropWhile isWS
      (!(r2.takeWhile isDigitCh).isEmpty) &&
        (let r3 := r2.dropWhile isDigitCh
         (match r3 with | c :: _ => isWS c | [] => false) &&
         isPrefixCI ("SubTot".toList) (r3.dropWhile isWS))))

/-- Cases, optional whitespace, colon. -/
def casesColonPat (l : Str) : Bool := prefixWSColon ("Cases".toList) l

/-- Prod#, whitespace, Unt (the section-exit check in the PO pass). -/
def prodUntPat (l : Str) : Bool :=
  prefixWSPrefix ("Prod#".toList) ("Unt".toList) l

/-- Comment, optional digits, colon. -/
def commentPat (l : Str) : Bool :=
  isPrefixCI ("Comment".toList) l &&
    match (l.drop 7).dropWhile isDigitCh with
    | ':' :: _ => true
    | _ => false

/-- On, whitespace, Days at end of line. -/
def onDaysPat (l : Str) : Bool :=
  isPrefixCI ("On".toList) l &&
    (let r := l.drop 2
     (match r with | c :: _ => isWS c | [] => false) &&
     eqCI (r.dropWhile isWS) ("Days".toList))

def skipPatterns : List (Str → Bool) :=
  [ isPrefixCI ("RUN DATE".toList)
  , isPrefixCI ("RUN TIME".toList)
  , isPrefixCI ("INVORD".toList)
  , isPrefixCI ("Arrival date".toList)
  , isPrefixCI ("BH/Ship date".toList)
  , prefixWSColon ("Phone".toList)
  , prefixWSColon ("Buyer".toList)
  , isPrefixCI ("Freight:".toList)
  , starsPat
  , prodUntSizePat
  , fun l => (!l.isEmpty) && l.all (fun c => c = '=')
  , fun l => (!l.isEmpty) && l.all (fun c => c = '-')
  , isPrefixCI ("TiHi:".toList)
  , isPrefixCI ("Cube:".toList)
  , isPrefixCI ("Open P.O.".toList)
  , prefixWSPrefix ("P.O.".toList) ("Due".toList)
  , isPrefixCI ("Special Order summary".toList)
  , vndSubTotPat
  , casesColonPat
  , isPrefixCI ("Dollars:".toList)
  , prefixWSPrefix ("Ave".toList) ("Gross".toList)
  , fun l => l.all isWS
  , isPrefixCI ("PAGE:".toList)
  , isPrefixCI ("Performance Foodservice".toList)
  , isPrefixCI ("Sort Option:".toList)
  , isPrefixCI ("Min Order:".toList)
  , prefixWSColon ("Min Type".toList)
  , commentPat
  , isPrefixCI ("Terms:".toList)
  , isPrefixCI ("Frt Allow:".toList)
  , isPrefixCI ("Net Freight:".toList)
  , onDaysPat
  , eqCI ("Ordr Sply".toList)
  , isPrefixExact ("=====".toList)
  ]

/-- The source `shouldSkipLine`. -/
def shouldSkipLine (line : Str) : Bool :=
  let trimmed := trim line
  trimmed.isEmpty || skipPatterns.any (fun p => p trimmed)

/-! ### Vendor-header pattern

The anchored pattern: the literal Vendor marker with a colon, optional
whitespace, a digit group, mandatory whitespace, then a lazily matched name
group terminated by an optional broker tail or the end of the line. -/

/-- The broker tail can match at this position: optional whitespace, an
optional star, optional whitespace, then the Broker marker with a colon. -/
def brokerAt (l : Str) : Bool :=
  let l1 := l.dropWhile isWS
  let l2 := match l1 with
            | '*' :: r => r.dropWhile isWS
            | _ => l1
  isPrefixCI ("Broker:".toList) l2

/-- Offset (minus one) of the end of the lazy name group: the least extra
length at which the broker tail matches or the string ends. -/
def brokerSplit : Str → ℕ
  | [] => 0
  | c :: cs => if brokerAt (c :: cs) then 0 else 1 + brokerSplit cs

/-- Raw groups of the vendor pattern: the digit group and the untrimmed
name group. -/
def vendorGroups (l : Str) : Option (Str × Str) :=
  if isPrefixCI ("Vendor:".toList) l then
    let r1 := (l.drop 7).dropWhile isWS
    let ds := r1.takeWhile isDigitCh
    if ds.isEmpty then none
    else
      let r2 := r1.dropWhile isDigitCh
      let w := r2.takeWhile isWS
      if w.isEmpty then none
      else
        let tail := r2.dropWhile isWS
        match tail with
        | [] =>
            if 2 ≤ w.length then some (ds, [w.reverse.headD ' ']) else none
        | c :: cs => some (ds, (c :: cs).take (1 + brokerSplit cs))
  else none

/-- Replace of the trailing whitespace-star-whitespace pattern by the
empty string: drop the last star and the whitespace around it when the
line ends with optional whitespace after a star. -/
def stripTrailStar (l : Str) : Str :=
  match l.reverse.dropWhile isWS with
  | '*' :: r2 => (r2.dropWhile isWS).reverse
  | _ => l

/-- The source `parseVendorLine`: group one trimmed as the id, group two
trimmed, stripped of a trailing star, and trimmed again as the name. -/
def parseVendorLine (l : Str) : Option CurrentVendor :=
  match vendorGroups l with
  | none => none
  | some (ds, nm) => some ⟨trim ds, trim (stripTrailStar (trim nm))⟩

/-- The inline vendor extraction of the PO pass: group one trimmed, group
two stripped of a trailing star and then trimmed. -/
def parseVendorLinePO (l : Str) : Option CurrentVendor :=
  match vendorGroups l with
  | none => none
  | some (ds, nm) => some ⟨trim ds, trim (stripTrailStar nm)⟩

/-! ### Tail field recoverer (tiered variant, `parseTail` in `parse.ts`) -/

def ipFailNote (t : Str) : Str := ("Expected IP as float, got: ".toList) ++ t

def slotFailNote (t : Str) : Str := ("Expected Slot code, got: ".toList) ++ t

def mrkFailNote (t : Str) : Str := ("Expected MrkCst as float, got: ".toList) ++ t

def lndFailNote (t : Str) : Str := ("Expected LndCst as float, got: ".toList) ++ t

def soGoodNote : Str := "Special Order item with good data".toList

def mediumNote (k : ℕ) : Str :=
  (Nat.repr k).toList ++ (" numeric columns found - medium confidence".toList)

def lowNote (k : ℕ) : Str :=
  ("Only ".toList) ++ (Nat.repr k).toList ++
    (" numeric columns found (need 5+ for medium, 7+ for high)".toList)

def tooFewNote : Str := "Too few tokens for tail parsing".toList

/-- Initial state of the right-to-left fixed-position pass: `r` counts the
tokens not yet consumed from the right (the cursor is at `r - 1`). -/
def tailInit (tokens : List Str) : TailFixed :=
  ⟨none, none, none, none, .high, [], 0, tokens.length⟩

/-- Step one: the rightmost token as the item-priority score.  The token is
first stripped of one trailing dash, and the (dash-stripping) float test is
applied to the result. -/
def tailIP (tokens : List Str) (st : TailFixed) : TailFixed :=
  let t := tokAt tokens (st.r - 1)
  let cleaned := stripDash t
  if isFloatTok cleaned then
    { st with ip := some (parseFloatJS cleaned), consumed := st.consumed + 1, r := st.r - 1 }
  else
    { st with notes := st.notes ++ [ipFailNote t], conf := .low }

/-- Step two: the warehouse slot code. -/
def tailSlot (tokens : List Str) (st : TailFixed) : TailFixed :=
  if 1 ≤ st.r then
    let t := tokAt tokens (st.r - 1)
    if isSlotCode t || isAlnumTok t then
      { st with slot := some t, consumed := st.consumed + 1, r := st.r - 1 }
    else
      { st with notes := st.notes ++ [slotFailNote t], conf := .low }
  else st

/-- Step three: the market cost. -/
def tailMrk (tokens : List Str) (st : TailFixed) : TailFixed :=
  if 1 ≤ st.r then
    let t := tokAt tokens (st.r - 1)
    if isFloatTok t then
      { st with mrkCst := some (parseFloatJS t), consumed := st.consumed + 1, r := st.r - 1 }
    else
      { st with notes := st.notes ++ [mrkFailNote t], conf := .low }
  else st

/-- Step four: the landed cost. -/
def tailLnd (tokens : List Str) (st : TailFixed) : TailFixed :=
  if 1 ≤ st.r then
    let t := tokAt tokens (st.r - 1)
    if isFloatTok t then
      { st with lndCst := some (parseFloatJS t), consumed := st.consumed + 1, r := st.r - 1 }
    else
      { st with notes := st.notes ++ [lndFailNote t], conf := .low }
  else st

/-- The numeric run: walking left from index `r - 1`, collect tokens while
they are integers or floats, in left-to-right order. -/
def collectRun (tokens : List Str) : ℕ → List Str
  | 0 => []
  | r + 1 =>
      let t := tokAt tokens r
      if isIntRaw t || isFloatTok t then collectRun tokens r ++ [t] else []

/-- Column counting and confidence classification from the numeric-run
length, with field extraction per tier. -/
def tailClassify (tokens : List Str) (isSpecialOrder : Bool) (st : TailFixed) :
    TailParseResult :=
  let run := collectRun tokens st.r
  let k := run.length
  let sply : Option ℚ := if 1 ≤ k then some (parseFloatJS (run.getD (k - 1) [])) else none
  let c1 := st.consumed + (if 1 ≤ k then 1 else 0)
  if 7 ≤ k then
    if 9 ≤ k then
      { ip := st.ip, slot := st.slot, mrkCst := st.mrkCst, lndCst := st.lndCst,
        daysSply := sply,
        onOrder := some (parseIntJS (run.getD (k - 2) [])),
        avail := some (parseIntJS (run.getD (k - 3) [])),
        avg := some (parseIntJS (run.getD (k - 4) [])),
        confidence := if st.conf = .low then .low else .high,
        numericColumns := k,
        notes := st.notes ++ (if isSpecialOrder then [soGoodNote] else []),
        consumedCount := c1 + 3 }
    else if 8 ≤ k then
      { ip := st.ip, slot := st.slot, mrkCst := st.mrkCst, lndCst := st.lndCst,
        daysSply := sply,
        onOrder := none,
        avail := some (parseIntJS (run.getD (k - 2) [])),
        avg := some (parseIntJS (run.getD (k - 3) [])),
        confidence := if st.conf = .low then .low else .high,
        numericColumns := k,
        notes := st.notes ++ (if isSpecialOrder then [soGoodNote] else []),
        consumedCount := c1 + 2 }
    else
      { ip := st.ip, slot := st.slot, mrkCst := st.mrkCst, lndCst := st.lndCst,
        daysSply := sply,
        onOrder := none,
        avail := some (parseIntJS (run.getD (k - 2) [])),
        avg := none,
        confidence := if st.conf = .low then .low else .high,
        numericColumns := k,
        notes := st.notes ++ (if isSpecialOrder then [soGoodNote] else []),
        consumedCount := c1 + 1 }
  else if 5 ≤ k then
    { ip := st.ip, slot := st.slot, mrkCst := st.mrkCst, lndCst := st.lndCst,
      daysSply := sply,
      onOrder := none,
      avail := if 2 ≤ k then some (parseIntJS (run.getD (k - 2) [])) else none,
      avg := none,
      confidence := if st.conf = .low then .low else .medium,
      numericColumns := k,
      notes := st.notes ++ [mediumNote k],
      consumedCount := c1 + (if 2 ≤ k then 1 else 0) }
  else
    { ip := st.ip, slot := st.slot, mrkCst := st.mrkCst, lndCst := st.lndCst,
      daysSply := sply,
      onOrder := none,
      avail := if 2 ≤ k then some (parseIntJS (run.getD (k - 2) [])) else none,
      avg := if 3 ≤ k then some (parseIntJS (run.getD (k - 3) [])) else none,
      confidence := .low,
      numericColumns := k,
      notes := st.notes ++ [lowNote k],
      consumedCount := c1 + (if 2 ≤ k then 1 else 0) + (if 3 ≤ k then 1 else 0) }

/-- The tiered tail recoverer. -/
def parseTail (tokens : List Str) (isSpecialOrder : Bool) : TailParseResult :=
  if tokens.length < 4 then
    { ip := none, slot := none, mrkCst := none, lndCst := none, daysSply := none,
      onOrder := none, avail := none, avg := none, confidence := .low,
      numericColumns := 0, notes := [tooFewNote], consumedCount := 0 }
  else
    tailClassify tokens isSpecialOrder
      (tailLnd tokens (tailMrk tokens (tailSlot tokens (tailIP tokens (tailInit tokens)))))

/-! ### Front field recoverer (`parseFront`) -/

/-- Size-shaped tokens: count-of-size fractions, bare weight or volume
units, and joined forms. -/
def isSizeTok (t : Str) : Bool :=
  (let d1 := t.takeWhile isDigitCh
   (!d1.isEmpty) &&
     match t.dropWhile isDigitCh with
     | '/' :: r => (!r.isEmpty) && r.all isDigitDotCh
     | _ => false) ||
  (let a := t.takeWhile isDigitDotCh
   (!a.isEmpty) &&
     match t.dropWhile isDigitDotCh with
     | '/' :: r => (!r.isEmpty) && r.all isDigitDotCh
     | _ => false) ||
  eqCI t ("OZ".toList) || eqCI t ("LB".toList) || eqCI t ("GAL".toList) ||
  (let d1 := t.takeWhile isDigitCh
   (!d1.isEmpty) &&
     match t.dropWhile isDigitCh with
     | '/' :: r =>
         (!(r.takeWhile isDigitCh).isEmpty) && eqCI (r.dropWhile isDigitCh) ("OZ".toList)
     | _ => false) ||
  (let a := t.takeWhile isDigitDotCh
   (!a.isEmpty) && eqCI (t.dropWhile isDigitDotCh) ("OZ".toList))

def unitVocab : List Str :=
  [ "CS".toList, "EA".toList, "BX".toList, "PK".toList, "BG".toList,
    "DZ".toList, "CT".toList ]

/-- Count of numeric tokens among the next four (the lookahead that
detects the start of the sales block). -/
def lookaheadNumeric (ts : List Str) : ℕ :=
  ((ts.take 4).filter (fun t => isIntRaw t || isFloatTok t)).length

/-- Description loop: consume tokens until a bare integer is followed by a
numeric lookahead of at least two; that integer becomes year-to-date
sales. -/
def descLoop : List Str → List Str × Option ℕ
  | [] => ([], none)
  | t :: ts =>
      if isIntRaw t && decide (2 ≤ lookaheadNumeric (t :: ts)) then ([], some (parseIntJS t))
      else
        let r := descLoop ts
        (t :: r.1, r.2)

/-- The front recoverer: product number, special-order flag, unit, size
run, brand, description, year-to-date sales. -/
def parseFront (tokens : List Str) : FrontParseResult :=
  match tokens with
  | [] => ⟨[], false, [], [], [], [], none⟩
  | t0 :: rest0 =>
      let soStep : Bool × Str × List Str :=
        match rest0 with
        | t :: r => if t = ("S/O".toList) then (true, t, r) else (false, [], rest0)
        | [] => (false, [], rest0)
      let so := soStep.1
      let unit0 := soStep.2.1
      let rest1 := soStep.2.2
      let unitStep : Str × List Str :=
        if so then (unit0, rest1)
        else match rest1 with
             | t :: r => if unitVocab.any (fun u => eqCI t u) then (t, r) else (unit0, rest1)
             | [] => (unit0, rest1)
      let unit := unitStep.1
      let rest2 := unitStep.2
      let sizeToks := rest2.takeWhile isSizeTok
      let rest3 := rest2.dropWhile isSizeTok
      let brandStep : Str × List Str :=
        match rest3 with
        | b :: r => (b, r)
        | [] => ([], [])
      let d := descLoop brandStep.2
      ⟨t0, so, unit, joinSp sizeToks, brandStep.1, joinSp d.1, d.2⟩

/-! ### Item-line candidate check and item assembly -/

/-- The float count over the last six tokens: a token counts when the
dash-stripping float test accepts it directly or after one more stripped
trailing dash. -/
def isItemLine (line : Str) : Bool :=
  let trimmed := trim line
  if trimmed.isEmpty then false
  else
    let tokens := words trimmed
    if tokens.length < 8 then false
    else if !isProductNumber (tokAt tokens 0) then false
    else
      decide (2 ≤ ((tokens.drop (tokens.length - 6)).filter
        (fun t => isFloatTok t || isFloatTok (stripDash t))).length)

def daysSplyNullShort : Str := "DaysSply is null".toList

def daysSplyNullNote : Str := "DaysSply is null - needs review".toList

/-- The final guard of `parseItemLine`: a null days-of-supply forces the
confidence to low and appends a review note. -/
def finalizeItem (item : ParsedItem) : ParsedItem :=
  match item.daysSply with
  | none =>
      let notes2 :=
        if item.parseNotes.contains daysSplyNullShort then item.parseNotes
        else item.parseNotes ++ [daysSplyNullNote]
      { item with confidence := Confidence.low, parseNotes := notes2 }
  | some _ => item

/-- The source `parseItemLine`: front then tail recovery, assembly, and
the final days-of-supply guard. -/
def parseItemLine (line : Str) (vendor : CurrentVendor) : ParsedItem :=
  let trimmed := trim line
  let tokens := words trimmed
  let front := parseFront tokens
  let tail := parseTail tokens front.specialOrder
  finalizeItem
    { vendorId := vendor.id, vendorName := vendor.name,
      prodNo := front.prodNo, specialOrder := front.specialOrder,
      unit := front.unit, size := front.size, brand := front.brand,
      description := front.description, ytd := front.ytd,
      avg := tail.avg, avail := tail.avail, onOrder := tail.onOrder,
      daysSply := tail.daysSply, lndCst := tail.lndCst, mrkCst := tail.mrkCst,
      slot := tail.slot, ip := tail.ip, confidence := tail.confidence,
      numericColumns := tail.numericColumns, rawLine := trimmed,
      parseNotes := tail.notes }

def noVendorErr (k : ℕ) : Str :=
  ("Line ".toList) ++ (Nat.repr k).toList ++
    (": Item found before vendor declaration".toList)

/-- The per-line loop of `parseAllLines`: vendor headers update the
current-vendor cursor, noise is skipped, item-line candidates without a
vendor produce a one-based line-numbered error, and each remaining
candidate is parsed against the current vendor. -/
def itemLoop (v : Option CurrentVendor) (n : ℕ) : List Str → List ParsedItem × List Str
  | [] => ([], [])
  | l :: ls =>
      match parseVendorLine l with
      | some w => itemLoop (some w) (n + 1) ls
      | none =>
          if shouldSkipLine l then itemLoop v (n + 1) ls
          else if !isItemLine l then itemLoop v (n + 1) ls
          else
            match v with
            | none =>
                let r := itemLoop v (n + 1) ls
                (r.1, noVendorErr (n + 1) :: r.2)
            | some vd =>
                let r := itemLoop (some vd) (n + 1) ls
                (parseItemLine l vd :: r.1, r.2)

/-- The source `parseAllLines` on a text. -/
def parseAllLines (text : Str) : List ParsedItem × List Str :=
  itemLoop none 0 (splitNL text)

/-! ### Purchase-order recoverer (`parsePOLine` and friends) -/

def URGENT_WINDOW_DAYS : ℤ := 5

def noEDIReason : Str := "No EDI confirmation".toList

def noApptReason : Str := "No appointment".toList

/-- JS falsiness of the tri-state EDI flag: anything but a strict true. -/
def ediFalsy : Option Bool → Bool
  | some true => false
  | _ => true

/-- The urgency block of `parsePOLine`: inside the urgent window the
reasons accumulate in source order, and the urgent flag is set with each
reason. -/
def computeUrgency (daysUntilDue : ℤ) (edi : Option Bool) (appointment : Option Str) :
    List Str × Bool :=
  if daysUntilDue ≤ URGENT_WINDOW_DAYS then
    let p1 : List Str × Bool :=
      if ediFalsy edi then ([noEDIReason], true) else ([], false)
    if appointment.isNone then (p1.1 ++ [noApptReason], true) else p1
  else ([], false)

/-- The anchored status pattern: a Conf-colon marker followed by at least
one non-space character, or the literal Pending or Received, matched
case-sensitively at the start of the remainder. -/
def statusMatch (rest : Str) : Option Str :=
  if isPrefixExact ("Conf:".toList) rest then
    let run := (rest.drop 5).takeWhile (fun c => !isWS c)
    if run.isEmpty then none else some (("Conf:".toList) ++ run)
  else if isPrefixExact ("Pending".toList) rest then some ("Pending".toList)
  else if isPrefixExact ("Received".toList) rest then some ("Received".toList)
  else none

/-- Assembly of a purchase-order record once the three leading tokens have
been validated. -/
def buildPO (tokens : List Str) (vendor : CurrentVendor) (reportDate : ℤ) :
    PurchaseOrder :=
  let poNumber := tokAt tokens 0
  let dueDate := tokAt tokens 1
  let totalCases := parseIntJS (tokAt tokens 2)
  let rest := joinSp (tokens.drop 3)
  let status :=
    match statusMatch rest with
    | some s => s
    | none => tokAt tokens 3
  let edi0 : Option Bool :=
    if containsCI ("edi".toList) status then some true
    else if findWordCI ("Yes".toList) none rest then some true
    else if findWordCI ("No".toList) none rest then some false
    else none
  let edi : Option Bool :=
    if edi0.isNone && isPrefixCI ("Conf:".toList) status &&
       !containsCI ("edi".toList) status then some false
    else edi0
  let dates := scanDates rest
  let times := scanTimes rest
  let appointment : Option Str :=
    match dates, times with
    | d :: _, t :: _ => some (d ++ ' ' :: t)
    | _, _ => none
  let entered : Option Str :=
    match dates.reverse with
    | d :: _ => some d
    | [] => none
  let daysUntilDue := calculateDaysUntilDue dueDate reportDate
  let urg := computeUrgency daysUntilDue edi appointment
  { poNumber := poNumber, vendorId := vendor.id, vendorName := vendor.name,
    dueDate := dueDate, totalCases := totalCases, status := status,
    edi := edi, appointment := appointment, pickUp := none, entered := entered,
    daysUntilDue := daysUntilDue, isUrgent := urg.2, urgentReasons := urg.1 }

/-- The source `parsePOLine`: shape guards on the three leading tokens,
then assembly. -/
def parsePOLine (line : Str) (vendor : CurrentVendor) (reportDate : ℤ) :
    Option PurchaseOrder :=
  let tokens := words (trim line)
  if tokens.length < 4 then none
  else if !is5Digits (tokAt tokens 0) then none
  else if !isDateShapeTok (tokAt tokens 1) then none
  else if !isIntRaw (tokAt tokens 2) then none
  else some (buildPO tokens vendor reportDate)

/-- Five digits at the head of the trimmed line followed by whitespace. -/
def startsWith5dWS (l : Str) : Bool :=
  decide ((l.take 5).length = 5) && (l.take 5).all isDigitCh &&
    match l.drop 5 with
    | c :: _ => isWS c
    | [] => false

/-- The source `isPODataLine`: shape guards on the leading tokens, then a
Conf marker at token three, a Conf marker anywhere in the joined
remainder, at least three date-shaped substrings in the whole trimmed
line, or at least one time-shaped substring. -/
def isPODataLine (line : Str) : Bool :=
  let trimmed := trim line
  if !startsWith5dWS trimmed then false
  else
    let tokens := words trimmed
    if tokens.length < 4 then false
    else if !is5Digits (tokAt tokens 0) then false
    else if !isDateShapeTok (tokAt tokens 1) then false
    else if !isInt1to5 (tokAt tokens 2) then false
    else if isPrefixCI ("Conf:".toList) (tokAt tokens 3) then true
    else if containsCI ("Conf:".toList) (joinSp (tokens.drop 3)) then true
    else if decide (3 ≤ (scanDates trimmed).length) then true
    else if decide (1 ≤ (scanTimes trimmed).length) then true
    else false

/-- The special-order section header test. -/
def isSpecialOrderHeader (line : Str) : Bool :=
  containsCI ("Special Order summary for this vendor".toList) line

/-- Description loop of the special-order recoverer: stop at a date-shaped
token, or at a four-digit token past position two. -/
def soDescLoop : ℕ → List Str → List Str
  | _, [] => []
  | i, t :: ts =>
      if isDateShapeTok t then []
      else if is4Digits t && decide (2 < i) then []
      else t :: soDescLoop (i + 1) ts

/-- The tiered variant of `parseSpecialOrderLine` (in `parse.ts`): the
customer and quantity fields of the record type are left at their empty
defaults. -/
def parseSpecialOrderLine (line : Str) (vendor : CurrentVendor) : Option SpecialOrder :=
  let trimmed := trim line
  let tokens := words trimmed
  if tokens.length < 6 then none
  else if !isProductNumber (tokAt tokens 0) then none
  else
    let dates := scanDates trimmed
    if dates.isEmpty then none
    else
      let poNumber := find5Run none trimmed
      let status : SOStatus :=
        if containsExact ("*DOQ*".toList) trimmed then SOStatus.doq
        else if findWordCI ("Ready".toList) none trimmed then SOStatus.ready
        else SOStatus.order
      let descTokens := soDescLoop 1 (tokens.drop 1)
      some
        { prodNo := tokAt tokens 0, description := joinSp descTokens,
          custNo := [], customerName := [],
          dateEntered := dates.getD 0 [],
          dateDoq := if 1 < dates.length then some (dates.getD 1 []) else none,
          dateDue := if 2 < dates.length then some (dates.getD 2 []) else none,
          poNumber := poNumber, qtyOrdered := 0, onHand := 0,
          status := status, vendorId := vendor.id, vendorName := vendor.name }

/-! ### The PO pass (`parseAllPOs`) -/

/-- The per-line loop of `parseAllPOs`, threading the current vendor, the
special-order section flag, and the set of already seen PO numbers. -/
def poLoop (reportDate : ℤ) (v : Option CurrentVendor) (inSO : Bool) (seen : List Str) :
    List Str → List PurchaseOrder × List SpecialOrder
  | [] => ([], [])
  | l :: ls =>
      match parseVendorLinePO l with
      | some w => poLoop reportDate (some w) false seen ls
      | none =>
          if isSpecialOrderHeader l then poLoop reportDate v true seen ls
          else if (trim l).isEmpty then poLoop reportDate v inSO seen ls
          else
            let inSO2 := inSO && !(vndSubTotPat l || casesColonPat l || prodUntPat l)
            match v with
            | some vd =>
                if isPODataLine l then
                  match parsePOLine l vd reportDate with
                  | some po =>
                      if po.poNumber ∈ seen then
                        poLoop reportDate v inSO2 seen ls
                      else
                        let r := poLoop reportDate v inSO2 (po.poNumber :: seen) ls
                        (po :: r.1, r.2)
                  | none => poLoop reportDate v inSO2 seen ls
                else if inSO2 then
                  match parseSpecialOrderLine l vd with
                  | some so =>
                      let r := poLoop reportDate v inSO2 seen ls
                      (r.1, so :: r.2)
                  | none => poLoop reportDate v inSO2 seen ls
                else poLoop reportDate v inSO2 seen ls
            | none => poLoop reportDate v inSO2 seen ls

/-- The source `parseAllPOs` on a text. -/
def parseAllPOs (reportDate : ℤ) (text : Str) :
    List PurchaseOrder × List SpecialOrder :=
  poLoop reportDate none false [] (splitNL text)

/-- The same loop with deduplication disabled: every parsed PO candidate in
line order. -/
def poCand (reportDate : ℤ) (v : Option CurrentVendor) (inSO : Bool) :
    List Str → List PurchaseOrder
  | [] => []
  | l :: ls =>
      match parseVendorLinePO l with
      | some w => poCand reportDate (some w) false ls
      | none =>
          if isSpecialOrderHeader l then poCand reportDate v true ls
          else if (trim l).isEmpty then poCand reportDate v inSO ls
          else
            let inSO2 := inSO && !(vndSubTotPat l || casesColonPat l || prodUntPat l)
            match v with
            | some vd =>
                if isPODataLine l then
                  match parsePOLine l vd reportDate with
                  | some po => po :: poCand reportDate v inSO2 ls
                  | none => poCand reportDate v inSO2 ls
                else poCand reportDate v inSO2 ls
            | none => poCand reportDate v inSO2 ls

/-- All PO candidates of a text, in line order. -/
def poCandidates (reportDate : ℤ) (text : Str) : List PurchaseOrder :=
  poCand reportDate none false (splitNL text)

/-- Keep the first candidate for each PO number not already in `seen`. -/
def dedupByPO (seen : List Str) : List PurchaseOrder → List PurchaseOrder
  | [] => []
  | po :: ps =>
      if po.poNumber ∈ seen then dedupByPO seen ps
      else po :: dedupByPO (po.poNumber :: seen) ps

/-! ### Claim-level predicates -/

/-- A decimal token in the words of the item-line claim: digits, dot,
digits, optionally with one trailing sign marker. -/
def claimDecimalTok (t : Str) : Bool :=
  isFloatRaw t ||
    (match t.reverse with
     | c :: r => decide (c = '-') && isFloatRaw r.reverse
     | [] => false)

/-- The item-line candidate check in the words of the claim: first token a
product-number shape, at least six tokens, at least two of the last six
tokens decimal. -/
def claimItemLine (line : Str) : Bool :=
  let tokens := words (trim line)
  isProductNumber (tokAt tokens 0) && decide (6 ≤ tokens.length) &&
    decide (2 ≤ ((tokens.drop (tokens.length - 6)).filter claimDecimalTok).length)

/-- A decimal token with up to two trailing sign markers (what the source
float count actually accepts). -/
def specDecimalTok (t : Str) : Bool :=
  isFloatRaw t ||
    (match t.reverse with
     | c :: r =>
         decide (c = '-') &&
           (isFloatRaw r.reverse ||
             (match r with
              | c2 :: r2 => decide (c2 = '-') && isFloatRaw r2.reverse
              | [] => false))
     | [] => false)

/-- The amended item-line candidate check: at least eight tokens, a
product-number first token, and at least two of the last six tokens
decimal with up to two trailing sign markers. -/
def amendedItemLine (line : Str) : Bool :=
  let tokens := words (trim line)
  decide (8 ≤ tokens.length) && isProductNumber (tokAt tokens 0) &&
    decide (2 ≤ ((tokens.drop (tokens.length - 6)).filter specDecimalTok).length)

/-- The PO data-line check in the words of the claim: five-digit first
token, date-shaped second token, integer third token, and either a
Conf-prefixed fourth token, an additional date-shaped token, or a
time-of-day token. -/
def claimPODataLine (line : Str) : Bool :=
  let tokens := words (trim line)
  is5Digits (tokAt tokens 0) && isDateShapeTok (tokAt tokens 1) &&
    isIntRaw (tokAt tokens 2) &&
    (isPrefixCI ("Conf:".toList) (tokAt tokens 3) ||
     (tokens.drop 3).any isDateShapeTok ||
     (tokens.drop 3).any isTimeShapeTok)

/-- The amended PO data-line check: five-digit first token, date-shaped
second token, case-count token of one to five digits, and either a token
past the case count containing a Conf marker, at least three date-shaped
substrings in the whole line, or at least one time-of-day substring. -/
def amendedPODataLine (line : Str) : Bool :=
  let trimmed := trim line
  let tokens := words trimmed
  decide (4 ≤ tokens.length) && is5Digits (tokAt tokens 0) &&
    isDateShapeTok (tokAt tokens 1) && isInt1to5 (tokAt tokens 2) &&
    ((tokens.drop 3).any (containsCI ("Conf:".toList)) ||
     decide (3 ≤ (scanDates trimmed).length) ||
     decide (1 ≤ (scanTimes trimmed).length))

/-! ### Vendor attribution helpers -/

/-- Left-biased choice on the optional vendor. -/
def orElseV (x v : Option CurrentVendor) : Option CurrentVendor :=
  match x with
  | some w => some w
  | none => v

/-- The vendor extracted from the nearest vendor-header line among the
first `i` lines (scanning backwards from line `i`), for the item pass. -/
def nearestVendorItem (lines : List Str) (i : ℕ) : Option CurrentVendor :=
  (lines.take i).reverse.findSome? parseVendorLine

/-- The same for the PO pass (which uses the inline vendor extraction). -/
def nearestVendorPO (lines : List Str) (i : ℕ) : Option CurrentVendor :=
  (lines.take i).reverse.findSome? parseVendorLinePO

/-! ### Concrete example inputs -/

def exVendor : CurrentVendor := ⟨"00001740".toList, "FRITO LAY".toList⟩

def exItemLineStr : Str :=
  ("54406 CS 72/1 OZ DORITO CHIP TORTILLA NACHO CHSE 665 39 29 4 1 24 46 48 9 " ++
   "28.79 31.05 DL3400 4.4").toList

def exPOLineStr : Str :=
  "60649 01/02/26 955 Conf:EDI Costs Yes 01/02/26 06:00 12/23/25".toList

def exPOLineStr2 : Str :=
  "60649 01/03/26 100 Conf:EDI Costs Yes 01/03/26 07:00 12/23/25".toList

def exSOLineStr : Str :=
  "TF164 CHIP POTATO JALAPENO 1415 BILLS 12/11/25 12/22/25 01/06/26 60468 1 0 *DOQ* Bill H".toList

/-- Day number of the report date 2025-12-29. -/
def exReportDay : ℤ := jsDateDay 2025 11 29

def exPO1 : PurchaseOrder :=
  { poNumber := "60649".toList, vendorId := "00001740".toList,
    vendorName := "FRITO LAY".toList, dueDate := "01/02/26".toList,
    totalCases := 955, status := "Conf:EDI".toList, edi := some true,
    appointment := some ("01/02/26 06:00".toList), pickUp := none,
    entered := some ("12/23/25".toList), daysUntilDue := 4,
    isUrgent := false, urgentReasons := [] }

def exSO1 : SpecialOrder :=
  { prodNo := "TF164".toList, description := "CHIP POTATO JALAPENO".toList,
    custNo := [], customerName := [], dateEntered := "12/11/25".toList,
    dateDoq := some ("12/22/25".toList), dateDue := some ("01/06/26".toList),
    poNumber := some ("60468".toList), qtyOrdered := 0, onHand := 0,
    status := SOStatus.doq, vendorId := "00001740".toList,
    vendorName := "FRITO LAY".toList }

def exItem1 : ParsedItem := parseItemLine exItemLineStr exVendor

def exText : Str :=
  ("Vendor: 00001740 FRITO LAY\n" ++
   "60649 01/02/26 955 Conf:EDI Costs Yes 01/02/26 06:00 12/23/25\n" ++
   "60649 01/03/26 100 Conf:EDI Costs Yes 01/03/26 07:00 12/23/25\n" ++
   "54406 CS 72/1 OZ DORITO CHIP TORTILLA NACHO CHSE 665 39 29 4 1 24 46 48 9 " ++
   "28.79 31.05 DL3400 4.4\n" ++
   "Special Order summary for this vendor\n" ++
   "TF164 CHIP POTATO JALAPENO 1415 BILLS 12/11/25 12/22/25 01/06/26 60468 1 0 *DOQ* Bill H").toList

def exC2toks : List Str := words (trim exItemLineStr)

def exC5toks : List Str :=
  ["41.58".toList, "44.49".toList, "DRY".toList, "0.7-".toList]

def exC4Line : Str := "AB 1.1 2.2 x y z".toList

def exC9Line : Str := "12345 01/02/26 955 note 03/04/05".toList

/-! ## Theorems -/

/-! ### Urgency characterization -/

theorem computeUrgency_flag (d : ℤ) (e : Option Bool) (a : Option Str) :
    (computeUrgency d e a).2 = true ↔ d ≤ 5 ∧ (e ≠ some true ∨ a = none) := by
  unfold computeUrgency URGENT_WINDOW_DAYS ediFalsy
  by_cases hd : d ≤ 5
  · rcases e with _ | e
    · rcases a with _ | a <;> simp [hd]
    · cases e <;> rcases a with _ | a <;> simp [hd]
  · simp [hd]

theorem computeUrgency_reasons (d : ℤ) (e : Option Bool) (a : Option Str) :
    (computeUrgency d e a).1 ≠ [] ↔ (computeUrgency d e a).2 = true := by
  unfold computeUrgency URGENT_WINDOW_DAYS ediFalsy
  by_cases hd : d ≤ 5
  · rcases e with _ | e
    · rcases a with _ | a <;> simp [hd]
    · cases e <;> rcases a with _ | a <;> simp [hd]
  · simp [hd]

theorem buildPO_isUrgent (toks : List Str) (v : CurrentVendor) (rd : ℤ) :
    (buildPO toks v rd).isUrgent =
      (computeUrgency (buildPO toks v rd).daysUntilDue (buildPO toks v rd).edi
        (buildPO toks v rd).appointment).2 := rfl

theorem buildPO_reasons (toks : List Str) (v : CurrentVendor) (rd : ℤ) :
    (buildPO toks v rd).urgentReasons =
      (computeUrgency (buildPO toks v rd).daysUntilDue (buildPO toks v rd).edi
        (buildPO toks v rd).appointment).1 := rfl

theorem parsePOLine_eq_buildPO (line : Str) (v : CurrentVendor) (rd : ℤ)
    (po : PurchaseOrder) (h : parsePOLine line v rd = some po) :
    po = buildPO (words (trim line)) v rd := by
  simp only [parsePOLine] at h
  split_ifs at h
  exact (Option.some.inj h).symm

/-- C1: for every purchase-order record produced by a parse, the urgency
flag holds exactly when the order is due within five days and either the
EDI flag is not true or no appointment is present; orders due further out
are never urgent; and the urgency reasons are non-empty exactly when the
flag holds. -/
theorem poUrgencyTotality (line : Str) (vendor : CurrentVendor) (reportDate : ℤ)
    (po : PurchaseOrder) (h : parsePOLine line vendor reportDate = some po) :
    (po.isUrgent = true ↔
      po.daysUntilDue ≤ 5 ∧ (po.edi ≠ some true ∨ po.appointment = none)) ∧
    (5 < po.daysUntilDue → po.isUrgent = false) ∧
    (po.urgentReasons ≠ [] ↔ po.isUrgent = true) := by
  obtain rfl := parsePOLine_eq_buildPO line vendor reportDate po h
  rw [buildPO_isUrgent, buildPO_reasons]
  refine ⟨computeUrgency_flag _ _ _, ?_, computeUrgency_reasons _ _ _⟩
  intro hgt
  rcases hu : (computeUrgency (buildPO (words (trim line)) vendor reportDate).daysUntilDue
      (buildPO (words (trim line)) vendor reportDate).edi
      (buildPO (words (trim line)) vendor reportDate).appointment).2 with _ | _
  · rfl
  · exact absurd (((computeUrgency_flag _ _ _).mp hu).1) (by omega)

theorem poUrgencyTotality_witness :
    parsePOLine exPOLineStr exVendor exReportDay = some exPO1 ∧
    ((exPO1.isUrgent = true ↔
       exPO1.daysUntilDue ≤ 5 ∧ (exPO1.edi ≠ some true ∨ exPO1.appointment = none)) ∧
     (5 < exPO1.daysUntilDue → exPO1.isUrgent = false) ∧
     (exPO1.urgentReasons ≠ [] ↔ exPO1.isUrgent = true)) :=
  ⟨by decide, poUrgencyTotality exPOLineStr exVendor exReportDay exPO1 (by decide)⟩

/-! ### Days-of-supply invariant -/

/-- C3: an emitted item record with high confidence always carries a
non-null days-of-supply. -/
theorem finalizeItem_high_daysSply (item : ParsedItem)
    (h : (finalizeItem item).confidence = Confidence.high) :
    (finalizeItem item).daysSply ≠ none := by
  unfold finalizeItem at h ⊢
  cases hd : item.daysSply with
  | none => rw [hd] at h; simp at h
  | some q => rw [hd] at h ⊢; simp [hd]

theorem itemHighConfDaysSply (line : Str) (vendor : CurrentVendor)
    (h : (parseItemLine line vendor).confidence = Confidence.high) :
    (parseItemLine line vendor).daysSply ≠ none :=
  finalizeItem_high_daysSply _ h

theorem itemHighConfDaysSply_witness :
    (parseItemLine exItemLineStr exVendor).confidence = Confidence.high ∧
    (parseItemLine exItemLineStr exVendor).daysSply ≠ none :=
  ⟨by decide, itemHighConfDaysSply exItemLineStr exVendor (by decide)⟩

/-! ### Special-order record defaults -/

/-- C10: every special-order record emitted by the tiered recoverer leaves
the customer number, customer name, ordered quantity and on-hand quantity
at their empty defaults. -/
theorem specialOrderEmptyCustomerFields (line : Str) (vendor : CurrentVendor)
    (so : SpecialOrder) (h : parseSpecialOrderLine line vendor = some so) :
    so.custNo = [] ∧ so.customerName = [] ∧ so.qtyOrdered = 0 ∧ so.onHand = 0 := by
  simp only [parseSpecialOrderLine] at h
  split_ifs at h <;>
    (obtain rfl := (Option.some.inj h).symm; exact ⟨rfl, rfl, rfl, rfl⟩)

theorem specialOrderEmptyCustomerFields_witness :
    parseSpecialOrderLine exSOLineStr exVendor = some exSO1 ∧
    (exSO1.custNo = [] ∧ exSO1.customerName = [] ∧
     exSO1.qtyOrdered = 0 ∧ exSO1.onHand = 0) :=
  ⟨by decide, specialOrderEmptyCustomerFields exSOLineStr exVendor exSO1 (by decide)⟩

/-! ### Trailing-dash item-priority (C5) -/

theorem isFloatRaw_structure (t : Str) (h : isFloatRaw t = true) :
    ∃ d1 d2, t = d1 ++ '.' :: d2 ∧ d2 ≠ [] ∧ d2.all isDigitCh = true := by
  simp only [isFloatRaw, Bool.and_eq_true] at h
  obtain ⟨h1, h2⟩ := h
  split at h2
  next r2 heq =>
    refine ⟨t.takeWhile isDigitCh, r2, ?_, ?_, ?_⟩
    · conv_lhs => rw [← List.takeWhile_append_dropWhile (p := isDigitCh) (l := t)]
      rw [heq]
    · rw [Bool.and_eq_true] at h2
      intro hnil
      rw [hnil] at h2
      simp at h2
    · rw [Bool.and_eq_true] at h2
      exact h2.2
  next => exact absurd h2 (by simp)

theorem isFloatRaw_dash_false (t : Str) (r : Str) (hr : t.reverse = '-' :: r) :
    isFloatRaw t = false := by
  by_contra hne
  have h : isFloatRaw t = true := by
    cases hb : isFloatRaw t
    · exact absurd hb hne
    · rfl
  obtain ⟨d1, d2, ht, hd2, hall⟩ := isFloatRaw_structure t h
  rcases hrev : d2.reverse with _ | ⟨z, zs⟩
  · exact hd2 (by simpa using congrArg List.reverse hrev)
  · have hz : z ∈ d2 := by
      have : z ∈ d2.reverse := by rw [hrev]; exact List.mem_cons_self z zs
      exact List.mem_reverse.mp this
    have hzd : isDigitCh z = true := by
      rw [List.all_eq_true] at hall
      exact hall z hz
    have : t.reverse = z :: (zs ++ '.' :: d1.reverse) := by
      rw [ht]
      simp [List.reverse_append, hrev]
    rw [this] at hr
    obtain ⟨hz1, -⟩ := List.cons.inj hr
    rw [hz1] at hzd
    simp [isDigitCh, Char.isDigit] at hzd

theorem stripDash_append_dash (d : Str) : stripDash (d ++ ['-']) = d := by
  unfold stripDash
  rw [List.reverse_append]
  simp

theorem stripDash_of_no_dash (t : Str) (h : ∀ r, t.reverse ≠ '-' :: r) :
    stripDash t = t := by
  unfold stripDash
  rcases hr : t.reverse with _ | ⟨c, r⟩
  · rfl
  · show (if c = '-' then r.reverse else t) = t
    rw [if_neg]
    intro hc
    exact h r (hc ▸ hr)

theorem tailSlot_ip (tokens : List Str) (st : TailFixed) :
    (tailSlot tokens st).ip = st.ip := by
  simp only [tailSlot]; split_ifs <;> rfl

theorem tailMrk_ip (tokens : List Str) (st : TailFixed) :
    (tailMrk tokens st).ip = st.ip := by
  simp only [tailMrk]; split_ifs <;> rfl

theorem tailLnd_ip (tokens : List Str) (st : TailFixed) :
    (tailLnd tokens st).ip = st.ip := by
  simp only [tailLnd]; split_ifs <;> rfl

theorem tailClassify_ip (tokens : List Str) (so : Bool) (st : TailFixed) :
    (tailClassify tokens so st).ip = st.ip := by
  simp only [tailClassify]; split_ifs <;> rfl

theorem parseFloatJS_nonneg (t : Str) : 0 ≤ parseFloatJS t := by
  simp only [parseFloatJS]
  split
  · positivity
  · positivity

/-- C5 (amended): a rightmost token that is a decimal with a trailing dash
yields the decimal itself as the item-priority score — the sign marker is
stripped and ignored, no negation is applied, so the score is nonnegative. -/
theorem ipTrailingDashAmended (tokens : List Str) (so : Bool) (d : Str)
    (hn : 4 ≤ tokens.length)
    (hlast : tokAt tokens (tokens.length - 1) = d ++ ['-'])
    (hd : isFloatRaw d = true) :
    (parseTail tokens so).ip = some (parseFloatJS d) ∧ 0 ≤ parseFloatJS d := by
  refine ⟨?_, parseFloatJS_nonneg d⟩
  have hds : stripDash (tokAt tokens (tokens.length - 1)) = d := by
    rw [hlast]; exact stripDash_append_dash d
  have hdd : stripDash d = d := by
    refine stripDash_of_no_dash d ?_
    intro r hr
    rw [isFloatRaw_dash_false d r hr] at hd
    exact Bool.false_ne_true hd
  have hguard : isFloatTok (stripDash (tokAt tokens (tokens.length - 1))) = true := by
    rw [hds]; unfold isFloatTok; rw [hdd]; exact hd
  unfold parseTail
  rw [if_neg (by omega)]
  rw [tailClassify_ip, tailLnd_ip, tailMrk_ip, tailSlot_ip]
  unfold tailIP tailInit
  simp only [hguard, if_pos]
  rw [hds]

theorem ipTrailingDashAmended_witness :
    (4 ≤ exC5toks.length ∧
     tokAt exC5toks (exC5toks.length - 1) = ("0.7".toList) ++ ['-'] ∧
     isFloatRaw ("0.7".toList) = true) ∧
    ((parseTail exC5toks false).ip = some (parseFloatJS ("0.7".toList)) ∧
     0 ≤ parseFloatJS ("0.7".toList)) :=
  ⟨⟨by decide, by decide, by decide⟩,
   ipTrailingDashAmended exC5toks false ("0.7".toList) (by decide) (by decide) (by decide)⟩

/-- C5 (counterexample): on a tail whose rightmost token is the decimal
seven tenths with a trailing dash, the recovered item-priority score is
the positive decimal, not its negation. -/
theorem ipTrailingDashClaimFalse :
    (parseTail exC5toks false).ip = some (parseFloatJS ("0.7".toList)) ∧
    (parseTail exC5toks false).ip ≠ some (-(parseFloatJS ("0.7".toList))) := by
  constructor
  · rfl
  · intro h
    have h1 : parseFloatJS ("0.7".toList) = -(parseFloatJS ("0.7".toList)) := by
      have h0 : (parseTail exC5toks false).ip = some (parseFloatJS ("0.7".toList)) := rfl
      rw [h0] at h
      exact Option.some.inj h
    have h2 : parseFloatJS ("0.7".toList) =
        ((0 : ℕ) : ℚ) + ((7 : ℕ) : ℚ) / (10 : ℚ) ^ (1 : ℕ) := rfl
    rw [h2] at h1
    norm_num at h1

/-! ### Tier classification (C2) -/

theorem tailSteps (tokens : List Str) (hn : 4 ≤ tokens.length)
    (h1 : isFloatTok (stripDash (tokAt tokens (tokens.length - 1))) = true)
    (h2 : (isSlotCode (tokAt tokens (tokens.length - 2)) ||
           isAlnumTok (tokAt tokens (tokens.length - 2))) = true)
    (h3 : isFloatTok (tokAt tokens (tokens.length - 3)) = true)
    (h4 : isFloatTok (tokAt tokens (tokens.length - 4)) = true) :
    tailLnd tokens (tailMrk tokens (tailSlot tokens (tailIP tokens (tailInit tokens)))) =
      ⟨some (parseFloatJS (stripDash (tokAt tokens (tokens.length - 1)))),
       some (tokAt tokens (tokens.length - 2)),
       some (parseFloatJS (tokAt tokens (tokens.length - 3))),
       some (parseFloatJS (tokAt tokens (tokens.length - 4))),
       Confidence.high, [], 4, tokens.length - 4⟩ := by
  have e2 : tokens.length - 1 - 1 = tokens.length - 2 := by omega
  have e3 : tokens.length - 2 - 1 = tokens.length - 3 := by omega
  have e4 : tokens.length - 3 - 1 = tokens.length - 4 := by omega
  have g1 : 1 ≤ tokens.length - 1 := by omega
  have g2 : 1 ≤ tokens.length - 2 := by omega
  have g3 : 1 ≤ tokens.length - 3 := by omega
  have s1 : tailIP tokens (tailInit tokens) =
      ⟨some (parseFloatJS (stripDash (tokAt tokens (tokens.length - 1)))),
       none, none, none, Confidence.high, [], 1, tokens.length - 1⟩ := by
    simp only [tailIP, tailInit, h1, if_pos]
  rw [s1]
  have s2 : tailSlot tokens
      ⟨some (parseFloatJS (stripDash (tokAt tokens (tokens.length - 1)))),
       none, none, none, Confidence.high, [], 1, tokens.length - 1⟩ =
      ⟨some (parseFloatJS (stripDash (tokAt tokens (tokens.length - 1)))),
       some (tokAt tokens (tokens.length - 2)),
       none, none, Confidence.high, [], 2, tokens.length - 2⟩ := by
    simp only [tailSlot, g1, if_pos, e2, h2]
  rw [s2]
  have s3 : tailMrk tokens
      ⟨some (parseFloatJS (stripDash (tokAt tokens (tokens.length - 1)))),
       some (tokAt tokens (tokens.length - 2)),
       none, none, Confidence.high, [], 2, tokens.length - 2⟩ =
      ⟨some (parseFloatJS (stripDash (tokAt tokens (tokens.length - 1)))),
       some (tokAt tokens (tokens.length - 2)),
       some (parseFloatJS (tokAt tokens (tokens.length - 3))),
       none, Confidence.high, [], 3, tokens.length - 3⟩ := by
    simp only [tailMrk, g2, if_pos, e3, h3]
  rw [s3]
  simp only [tailLnd, g3, if_pos, e4, h4]

/-- C2: when the four fixed-position tail fields all parse, the confidence
tier and remaining fields are read off the numeric-run length: nine or
more columns give high with on-order, available and average from the
right; exactly eight give high with no on-order; exactly seven give high
with available only; five or six give medium; fewer than five give low.
The special-order flag does not change any of this. -/
theorem tailTierClassification (tokens : List Str) (so : Bool)
    (hn : 4 ≤ tokens.length)
    (h1 : isFloatTok (stripDash (tokAt tokens (tokens.length - 1))) = true)
    (h2 : (isSlotCode (tokAt tokens (tokens.length - 2)) ||
           isAlnumTok (tokAt tokens (tokens.length - 2))) = true)
    (h3 : isFloatTok (tokAt tokens (tokens.length - 3)) = true)
    (h4 : isFloatTok (tokAt tokens (tokens.length - 4)) = true)
    (run : List Str) (hrun : run = collectRun tokens (tokens.length - 4))
    (k : ℕ) (hk : k = run.length) :
    (parseTail tokens so).numericColumns = k ∧
    (9 ≤ k →
      (parseTail tokens so).confidence = Confidence.high ∧
      (parseTail tokens so).onOrder = some (parseIntJS (run.getD (k - 2) [])) ∧
      (parseTail tokens so).avail = some (parseIntJS (run.getD (k - 3) [])) ∧
      (parseTail tokens so).avg = some (parseIntJS (run.getD (k - 4) []))) ∧
    (k = 8 →
      (parseTail tokens so).confidence = Confidence.high ∧
      (parseTail tokens so).onOrder = none ∧
      (parseTail tokens so).avail = some (parseIntJS (run.getD (k - 2) [])) ∧
      (parseTail tokens so).avg = some (parseIntJS (run.getD (k - 3) []))) ∧
    (k = 7 →
      (parseTail tokens so).confidence = Confidence.high ∧
      (parseTail tokens so).onOrder = none ∧
      (parseTail tokens so).avg = none ∧
      (parseTail tokens so).avail = some (parseIntJS (run.getD (k - 2) []))) ∧
    (5 ≤ k → k ≤ 6 → (parseTail tokens so).confidence = Confidence.medium) ∧
    (k < 5 → (parseTail tokens so).confidence = Confidence.low) := by
  have hp : parseTail tokens so =
      tailClassify tokens so
        ⟨some (parseFloatJS (stripDash (tokAt tokens (tokens.length - 1)))),
         some (tokAt tokens (tokens.length - 2)),
         some (parseFloatJS (tokAt tokens (tokens.length - 3))),
         some (parseFloatJS (tokAt tokens (tokens.length - 4))),
         Confidence.high, [], 4, tokens.length - 4⟩ := by
    unfold parseTail
    rw [if_neg (by omega)]
    rw [tailSteps tokens hn h1 h2 h3 h4]
  rw [hp]
  simp only [tailClassify, ← hrun, ← hk]
  refine ⟨?_, ?_, ?_, ?_, ?_, ?_⟩
  · split_ifs <;> rfl
  · intro h9
    rw [if_pos (by omega : 7 ≤ k), if_pos h9]
    refine ⟨?_, rfl, rfl, rfl⟩
    simp
  · intro h8
    rw [if_pos (by omega : 7 ≤ k), if_neg (by omega : ¬ 9 ≤ k), if_pos (by omega : 8 ≤ k)]
    refine ⟨?_, rfl, rfl, rfl⟩
    simp
  · intro h7
    rw [if_pos (by omega : 7 ≤ k), if_neg (by omega : ¬ 9 ≤ k), if_neg (by omega : ¬ 8 ≤ k)]
    refine ⟨?_, rfl, rfl, rfl⟩
    simp
  · intro h5 h6
    rw [if_neg (by omega : ¬ 7 ≤ k), if_pos h5]
    simp
  · intro hlt
    rw [if_neg (by omega : ¬ 7 ≤ k), if_neg (by omega : ¬ 5 ≤ k)]

theorem tailTierClassification_witness :
    (4 ≤ exC2toks.length ∧
     isFloatTok (stripDash (tokAt exC2toks (exC2toks.length - 1))) = true ∧
     (isSlotCode (tokAt exC2toks (exC2toks.length - 2)) ||
      isAlnumTok (tokAt exC2toks (exC2toks.length - 2))) = true ∧
     isFloatTok (tokAt exC2toks (exC2toks.length - 3)) = true ∧
     isFloatTok (tokAt exC2toks (exC2toks.length - 4)) = true ∧
     collectRun exC2toks (exC2toks.length - 4) =
       collectRun exC2toks (exC2toks.length - 4) ∧
     9 ≤ (collectRun exC2toks (exC2toks.length - 4)).length) ∧
    ((parseTail exC2toks true).confidence = Confidence.high ∧
     (parseTail exC2toks true).onOrder =
       some (parseIntJS ((collectRun exC2toks (exC2toks.length - 4)).getD
         ((collectRun exC2toks (exC2toks.length - 4)).length - 2) [])) ∧
     (parseTail exC2toks true).avail =
       some (parseIntJS ((collectRun exC2toks (exC2toks.length - 4)).getD
         ((collectRun exC2toks (exC2toks.length - 4)).length - 3) [])) ∧
     (parseTail exC2toks true).avg =
       some (parseIntJS ((collectRun exC2toks (exC2toks.length - 4)).getD
         ((collectRun exC2toks (exC2toks.length - 4)).length - 4) []))) :=
  ⟨⟨by decide, by decide, by decide, by decide, by decide, rfl, by decide⟩,
   (tailTierClassification exC2toks true (by decide) (by decide) (by decide)
     (by decide) (by decide) _ rfl _ rfl).2.1 (by decide)⟩

/-! ### Item-line candidate check (C4) -/

theorem stripDash_rev_dash (t : Str) (r : Str) (hr : t.reverse = '-' :: r) :
    stripDash t = r.reverse := by
  unfold stripDash
  rw [hr]
  simp

theorem stripDash_rev_ne (t : Str) (c : Char) (r : Str) (hr : t.reverse = c :: r)
    (hc : c ≠ '-') : stripDash t = t := by
  unfold stripDash
  rw [hr]
  simp [hc]

theorem rev_rev_eq (t : Str) (x : Str) (hr : t.reverse = x) : t = x.reverse := by
  rw [← hr, List.reverse_reverse]

theorem codeDec_eq_spec (t : Str) :
    (isFloatTok t || isFloatTok (stripDash t)) = specDecimalTok t := by
  rcases hr : t.reverse with _ | ⟨c, r⟩
  · obtain rfl : t = [] := by simpa using rev_rev_eq t [] hr
    decide
  · by_cases hc : c = '-'
    · subst hc
      have hsd : stripDash t = r.reverse := stripDash_rev_dash t r hr
      have htf : isFloatRaw t = false := isFloatRaw_dash_false t r hr
      rcases r with _ | ⟨c2, r2⟩
      · obtain rfl : t = ['-'] := by simpa using rev_rev_eq t ['-'] hr
        decide
      · by_cases hc2 : c2 = '-'
        · subst hc2
          have hsd2 : stripDash (('-' :: r2).reverse) = r2.reverse :=
            stripDash_rev_dash _ r2 (by simp)
          have htf2 : isFloatRaw (('-' :: r2).reverse) = false :=
            isFloatRaw_dash_false _ r2 (by simp)
          simp only [isFloatTok, hsd, hsd2, specDecimalTok, hr, htf, htf2]
          simp
        · have hsd2 : stripDash ((c2 :: r2).reverse) = (c2 :: r2).reverse :=
            stripDash_rev_ne _ c2 r2 (by simp) hc2
          simp only [isFloatTok, hsd, hsd2, specDecimalTok, hr, htf]
          simp [hc2]
    · have hsd : stripDash t = t := stripDash_rev_ne t c r hr hc
      simp only [isFloatTok, hsd, specDecimalTok, hr]
      simp [hc]

theorem words_nil : words [] = [] := rfl

/-- C4 (amended): a raw line is an item-line candidate exactly when it has
at least eight whitespace-separated tokens, its first token is a
product-number shape, and at least two of the last six tokens are decimals
with up to two trailing sign markers. -/
theorem itemLineAmended (line : Str) :
    isItemLine line = true ↔ amendedItemLine line = true := by
  simp only [isItemLine, amendedItemLine]
  have hcnt :
      ((words (trim line)).drop ((words (trim line)).length - 6)).filter
          (fun t => isFloatTok t || isFloatTok (stripDash t)) =
        ((words (trim line)).drop ((words (trim line)).length - 6)).filter
          specDecimalTok := by
    congr 1
    exact funext codeDec_eq_spec
  by_cases h0 : (trim line).isEmpty
  · have h0' : trim line = [] := by
      cases htl : trim line
      · rfl
      · rw [htl] at h0; simp at h0
    rw [if_pos h0, h0', words_nil]
    simp
  · rw [if_neg h0]
    by_cases hlen : (words (trim line)).length < 8
    · rw [if_pos hlen]
      simp [show ¬ (8 ≤ (words (trim line)).length) from by omega]
    · rw [if_neg hlen]
      by_cases hprod : isProductNumber (tokAt (words (trim line)) 0) = true
      · rw [if_neg (by simp [hprod]), hcnt]
        simp [hprod, show 8 ≤ (words (trim line)).length from by omega]
      · rw [if_pos (by simp [Bool.not_eq_true] at hprod ⊢; exact hprod)]
        simp [hprod]

/-- C4 (counterexample): a line with six tokens, a product-number first
token, and two decimals among the last six satisfies the claim's check but
is rejected by the source, which demands at least eight tokens. -/
theorem itemLineClaimFalse :
    claimItemLine exC4Line = true ∧ isItemLine exC4Line = false :=
  ⟨by decide, by decide⟩

/-! ### Error handling for items before any vendor header (C8) -/

/-- C8: an item-line candidate reached with no vendor in scope produces a
one-based line-numbered error, produces no item record, and processing
continues with the remaining lines unchanged. -/
theorem noVendorItemError (l : Str) (ls : List Str) (n : ℕ)
    (hv : parseVendorLine l = none)
    (hs : shouldSkipLine l = false)
    (hi : isItemLine l = true) :
    itemLoop none n (l :: ls) =
      ((itemLoop none (n + 1) ls).1,
       noVendorErr (n + 1) :: (itemLoop none (n + 1) ls).2) := by
  simp only [itemLoop, hv, hs, hi]
  simp

theorem noVendorItemError_witness :
    (parseVendorLine exItemLineStr = none ∧ shouldSkipLine exItemLineStr = false ∧
     isItemLine exItemLineStr = true) ∧
    itemLoop none 0 [exItemLineStr] =
      ((itemLoop none 1 []).1, noVendorErr 1 :: (itemLoop none 1 []).2) :=
  ⟨⟨by decide, by decide, by decide⟩,
   noVendorItemError exItemLineStr [] 0 (by decide) (by decide) (by decide)⟩

/-! ### PO deduplication (C6) -/

theorem poLoop_fst_eq_dedup (rd : ℤ) (ls : List Str) :
    ∀ (v : Option CurrentVendor) (inSO : Bool) (seen : List Str),
      (poLoop rd v inSO seen ls).1 = dedupByPO seen (poCand rd v inSO ls) := by
  induction ls with
  | nil => intro v inSO seen; rfl
  | cons l ls ih =>
    intro v inSO seen
    simp only [poLoop, poCand]
    cases hv : parseVendorLinePO l with
    | some w => dsimp only; exact ih (some w) false seen
    | none =>
      dsimp only
      by_cases hso : isSpecialOrderHeader l = true
      · rw [if_pos hso, if_pos hso]
        exact ih v true seen
      · rw [if_neg hso, if_neg hso]
        by_cases hemp : (trim l).isEmpty = true
        · rw [if_pos hemp, if_pos hemp]
          exact ih v inSO seen
        · rw [if_neg hemp, if_neg hemp]
          cases v with
          | none =>
            dsimp only
            exact ih none (inSO && !(vndSubTotPat l || casesColonPat l || prodUntPat l)) seen
          | some vd =>
            dsimp only
            by_cases hpd : isPODataLine l = true
            · rw [if_pos hpd, if_pos hpd]
              cases hp : parsePOLine l vd rd with
              | none =>
                dsimp only
                exact ih (some vd)
                  (inSO && !(vndSubTotPat l || casesColonPat l || prodUntPat l)) seen
              | some po =>
                dsimp only
                simp only [dedupByPO]
                by_cases hc : po.poNumber ∈ seen
                · rw [if_pos hc, if_pos hc]
                  exact ih (some vd)
                    (inSO && !(vndSubTotPat l || casesColonPat l || prodUntPat l)) seen
                · rw [if_neg hc, if_neg hc]
                  dsimp only
                  rw [ih (some vd)
                    (inSO && !(vndSubTotPat l || casesColonPat l || prodUntPat l))
                    (po.poNumber :: seen)]
            · rw [if_neg hpd, if_neg hpd]
              by_cases hin :
                  (inSO && !(vndSubTotPat l || casesColonPat l || prodUntPat l)) = true
              · rw [if_pos hin]
                cases hsp : parseSpecialOrderLine l vd with
                | none =>
                  dsimp only
                  exact ih (some vd)
                    (inSO && !(vndSubTotPat l || casesColonPat l || prodUntPat l)) seen
                | some so =>
                  dsimp only
                  exact ih (some vd)
                    (inSO && !(vndSubTotPat l || casesColonPat l || prodUntPat l)) seen
              · rw [if_neg hin]
                exact ih (some vd)
                  (inSO && !(vndSubTotPat l || casesColonPat l || prodUntPat l)) seen

theorem dedupByPO_mem (l : List PurchaseOrder) :
    ∀ (seen : List Str) (po : PurchaseOrder), po ∈ dedupByPO seen l →
      po.poNumber ∉ seen ∧
      l.find? (fun c => decide (c.poNumber = po.poNumber)) = some po := by
  induction l with
  | nil => intro seen po h; cases h
  | cons c cs ih =>
    intro seen po h
    simp only [dedupByPO] at h
    by_cases hc : c.poNumber ∈ seen
    · rw [if_pos hc] at h
      obtain ⟨hnot, hfind⟩ := ih seen po h
      have hne : c.poNumber ≠ po.poNumber := by
        intro he; exact hnot (he ▸ hc)
      refine ⟨hnot, ?_⟩
      rw [List.find?_cons, decide_eq_false hne]
      exact hfind
    · rw [if_neg hc] at h
      rcases List.mem_cons.mp h with rfl | h2
      · refine ⟨hc, ?_⟩
        rw [List.find?_cons, decide_eq_true rfl]
      · obtain ⟨hnot, hfind⟩ := ih (c.poNumber :: seen) po h2
        have hne : c.poNumber ≠ po.poNumber := by
          intro he; exact hnot (by rw [← he]; exact List.mem_cons_self _ _)
        refine ⟨fun hmem => hnot (List.mem_cons_of_mem _ hmem), ?_⟩
        rw [List.find?_cons, decide_eq_false hne]
        exact hfind

theorem dedupByPO_pairwise (l : List PurchaseOrder) :
    ∀ seen : List Str,
      (dedupByPO seen l).Pairwise (fun a b => a.poNumber ≠ b.poNumber) := by
  induction l with
  | nil => intro seen; simp [dedupByPO]
  | cons c cs ih =>
    intro seen
    simp only [dedupByPO]
    split_ifs with hc
    · exact ih seen
    · refine List.Pairwise.cons ?_ (ih (c.poNumber :: seen))
      intro b hb
      have := (dedupByPO_mem cs (c.poNumber :: seen) b hb).1
      intro he
      exact this (by rw [← he]; exact List.mem_cons_self _ _)

/-- C6: within a single parse no two emitted purchase orders share a PO
number, and each emitted record is the first candidate carrying its PO
number in line order. -/
theorem poDedupFirstWins (text : Str) (rd : ℤ) :
    ((parseAllPOs rd text).1.Pairwise (fun a b => a.poNumber ≠ b.poNumber)) ∧
    (∀ po ∈ (parseAllPOs rd text).1,
      (poCandidates rd text).find? (fun c => decide (c.poNumber = po.poNumber)) =
        some po) := by
  have he : (parseAllPOs rd text).1 =
      dedupByPO [] (poCandidates rd text) :=
    poLoop_fst_eq_dedup rd (splitNL text) none false []
  constructor
  · rw [he]; exact dedupByPO_pairwise _ []
  · intro po hpo
    rw [he] at hpo
    exact (dedupByPO_mem _ [] po hpo).2

theorem poDedupFirstWins_witness :
    exPO1 ∈ (parseAllPOs exReportDay exText).1 ∧
    (poCandidates exReportDay exText).find?
      (fun c => decide (c.poNumber = exPO1.poNumber)) = some exPO1 :=
  ⟨by decide, (poDedupFirstWins exText exReportDay).2 exPO1 (by decide)⟩

/-! ### Vendor attribution (C7) -/

theorem orElseV_none (x : Option CurrentVendor) : orElseV x none = x := by
  cases x <;> rfl

theorem orElseV_some (x : Option CurrentVendor) (w : CurrentVendor) :
    orElseV x (some w) = some w ∨ orElseV x (some w) = x := by
  cases x
  · exact Or.inl rfl
  · exact Or.inr rfl

theorem findSome?_append_single (A : List Str) (l : Str)
    (f : Str → Option CurrentVendor) (v : Option CurrentVendor) :
    orElseV ((A ++ [l]).findSome? f) v =
      orElseV (A.findSome? f) (orElseV (f l) v) := by
  induction A with
  | nil =>
    simp only [List.nil_append, List.findSome?_cons, List.findSome?_nil]
    cases f l <;> rfl
  | cons a A ihA =>
    simp only [List.cons_append, List.findSome?_cons]
    cases f a
    · simp only [ihA]
    · rfl

/-- Lift a nearest-vendor existence statement over one consumed line. -/
theorem stepExists (p : Str → Option CurrentVendor) (R : Str → CurrentVendor → Prop)
    (l : Str) (ls : List Str) (v : Option CurrentVendor)
    (h : ∃ i, i < ls.length ∧ ∃ vd : CurrentVendor,
      orElseV ((ls.take i).reverse.findSome? p) (orElseV (p l) v) = some vd ∧
      R (ls.getD i []) vd) :
    ∃ i, i < (l :: ls).length ∧ ∃ vd : CurrentVendor,
      orElseV (((l :: ls).take i).reverse.findSome? p) v = some vd ∧
      R ((l :: ls).getD i []) vd := by
  obtain ⟨i, hi, vd, hnv, hR⟩ := h
  refine ⟨i + 1, by simpa using hi, vd, ?_, ?_⟩
  · rw [List.take_succ_cons, List.reverse_cons, findSome?_append_single]
    exact hnv
  · simpa using hR

theorem finalizeItem_vendorId (item : ParsedItem) :
    (finalizeItem item).vendorId = item.vendorId := by
  unfold finalizeItem; split <;> rfl

theorem finalizeItem_vendorName (item : ParsedItem) :
    (finalizeItem item).vendorName = item.vendorName := by
  unfold finalizeItem; split <;> rfl

theorem parseItemLine_vendorId (l : Str) (vd : CurrentVendor) :
    (parseItemLine l vd).vendorId = vd.id := by
  simp only [parseItemLine]
  rw [finalizeItem_vendorId]

theorem parseItemLine_vendorName (l : Str) (vd : CurrentVendor) :
    (parseItemLine l vd).vendorName = vd.name := by
  simp only [parseItemLine]
  rw [finalizeItem_vendorName]

theorem parsePOLine_vendorFields (l : Str) (vd : CurrentVendor) (rd : ℤ)
    (po : PurchaseOrder) (h : parsePOLine l vd rd = some po) :
    po.vendorId = vd.id ∧ po.vendorName = vd.name := by
  obtain rfl := parsePOLine_eq_buildPO l vd rd po h
  exact ⟨rfl, rfl⟩

theorem parseSpecialOrderLine_vendorFields (l : Str) (vd : CurrentVendor)
    (so : SpecialOrder) (h : parseSpecialOrderLine l vd = some so) :
    so.vendorId = vd.id ∧ so.vendorName = vd.name := by
  simp only [parseSpecialOrderLine] at h
  split_ifs at h <;>
    (obtain rfl := (Option.some.inj h).symm; exact ⟨rfl, rfl⟩)

theorem itemLoop_vendor (it : ParsedItem) (ls : List Str) :
    ∀ (v : Option CurrentVendor) (n : ℕ), it ∈ (itemLoop v n ls).1 →
      ∃ i, i < ls.length ∧ ∃ vd : CurrentVendor,
        orElseV ((ls.take i).reverse.findSome? parseVendorLine) v = some vd ∧
        (isItemLine (ls.getD i []) = true ∧ it = parseItemLine (ls.getD i []) vd) := by
  induction ls with
  | nil => intro v n h; cases h
  | cons l ls ih =>
    intro v n h
    simp only [itemLoop] at h
    cases hv : parseVendorLine l with
    | some w =>
      rw [hv] at h
      try dsimp only at h
      refine stepExists parseVendorLine (fun line vd => isItemLine line = true ∧ it = parseItemLine line vd) l ls v ?_
      rw [hv]
      exact ih (some w) (n + 1) h
    | none =>
      rw [hv] at h
      try dsimp only at h
      have hbase : orElseV (parseVendorLine l) v = v := by rw [hv]; rfl
      by_cases hs : shouldSkipLine l = true
      · rw [if_pos hs] at h
        refine stepExists parseVendorLine (fun line vd => isItemLine line = true ∧ it = parseItemLine line vd) l ls v ?_
        rw [hbase]
        exact ih v (n + 1) h
      · rw [if_neg hs] at h
        by_cases hitem : isItemLine l = true
        · rw [hitem] at h
          try dsimp only at h
          cases v with
          | none =>
            try dsimp only at h
            refine stepExists parseVendorLine (fun line vd => isItemLine line = true ∧ it = parseItemLine line vd) l ls none ?_
            rw [hbase]
            exact ih none (n + 1) h
          | some vd =>
            try dsimp only at h
            rcases List.mem_cons.mp h with rfl | h2
            · exact ⟨0, by simp, vd, rfl, hitem, rfl⟩
            · refine stepExists parseVendorLine (fun line vd => isItemLine line = true ∧ it = parseItemLine line vd) l ls (some vd) ?_
              rw [hbase]
              exact ih (some vd) (n + 1) h2
        · have hib : (!isItemLine l) = true := by
            cases hb : isItemLine l
            · rfl
            · exact absurd hb hitem
          rw [hib] at h
          try dsimp only at h
          refine stepExists parseVendorLine (fun line vd => isItemLine line = true ∧ it = parseItemLine line vd) l ls v ?_
          rw [hbase]
          exact ih v (n + 1) h

theorem poLoop_vendorPO (rd : ℤ) (po : PurchaseOrder) (ls : List Str) :
    ∀ (v : Option CurrentVendor) (inSO : Bool) (seen : List Str),
      po ∈ (poLoop rd v inSO seen ls).1 →
      ∃ i, i < ls.length ∧ ∃ vd : CurrentVendor,
        orElseV ((ls.take i).reverse.findSome? parseVendorLinePO) v = some vd ∧
        (isPODataLine (ls.getD i []) = true ∧
         parsePOLine (ls.getD i []) vd rd = some po) := by
  induction ls with
  | nil => intro v inSO seen h; cases h
  | cons l ls ih =>
    intro v inSO seen h
    simp only [poLoop] at h
    cases hv : parseVendorLinePO l with
    | some w =>
      rw [hv] at h
      try dsimp only at h
      refine stepExists parseVendorLinePO (fun line vd => isPODataLine line = true ∧ parsePOLine line vd rd = some po) l ls v ?_
      rw [hv]
      exact ih (some w) false seen h
    | none =>
      rw [hv] at h
      try dsimp only at h
      have hbase : orElseV (parseVendorLinePO l) v = v := by rw [hv]; rfl
      by_cases hso : isSpecialOrderHeader l = true
      · rw [if_pos hso] at h
        refine stepExists parseVendorLinePO (fun line vd => isPODataLine line = true ∧ parsePOLine line vd rd = some po) l ls v ?_
        rw [hbase]
        exact ih v true seen h
      · rw [if_neg hso] at h
        by_cases hemp : (trim l).isEmpty = true
        · rw [if_pos hemp] at h
          refine stepExists parseVendorLinePO (fun line vd => isPODataLine line = true ∧ parsePOLine line vd rd = some po) l ls v ?_
          rw [hbase]
          exact ih v inSO seen h
        · rw [if_neg hemp] at h
          cases v with
          | none =>
            try dsimp only at h
            refine stepExists parseVendorLinePO (fun line vd => isPODataLine line = true ∧ parsePOLine line vd rd = some po) l ls none ?_
            rw [hbase]
            exact ih none _ seen h
          | some vd =>
            try dsimp only at h
            by_cases hpd : isPODataLine l = true
            · rw [if_pos hpd] at h
              cases hp : parsePOLine l vd rd with
              | some po2 =>
                rw [hp] at h
                try dsimp only at h
                by_cases hc : po2.poNumber ∈ seen
                · rw [if_pos hc] at h
                  refine stepExists parseVendorLinePO (fun line vd => isPODataLine line = true ∧ parsePOLine line vd rd = some po) l ls (some vd) ?_
                  rw [hbase]
                  exact ih (some vd) _ seen h
                · rw [if_neg hc] at h
                  rcases List.mem_cons.mp h with rfl | h2
                  · exact ⟨0, by simp, vd, rfl, hpd, hp⟩
                  · refine stepExists parseVendorLinePO (fun line vd => isPODataLine line = true ∧ parsePOLine line vd rd = some po) l ls (some vd) ?_
                    rw [hbase]
                    exact ih (some vd) _ _ h2
              | none =>
                rw [hp] at h
                try dsimp only at h
                refine stepExists parseVendorLinePO (fun line vd => isPODataLine line = true ∧ parsePOLine line vd rd = some po) l ls (some vd) ?_
                rw [hbase]
                exact ih (some vd) _ seen h
            · rw [if_neg hpd] at h
              by_cases hin :
                  (inSO && !(vndSubTotPat l || casesColonPat l || prodUntPat l)) = true
              · rw [if_pos hin] at h
                cases hsp : parseSpecialOrderLine l vd with
                | some so =>
                  rw [hsp] at h
                  try dsimp only at h
                  refine stepExists parseVendorLinePO (fun line vd => isPODataLine line = true ∧ parsePOLine line vd rd = some po) l ls (some vd) ?_
                  rw [hbase]
                  exact ih (some vd) _ seen h
                | none =>
                  rw [hsp] at h
                  try dsimp only at h
                  refine stepExists parseVendorLinePO (fun line vd => isPODataLine line = true ∧ parsePOLine line vd rd = some po) l ls (some vd) ?_
                  rw [hbase]
                  exact ih (some vd) _ seen h
              · rw [if_neg hin] at h
                refine stepExists parseVendorLinePO (fun line vd => isPODataLine line = true ∧ parsePOLine line vd rd = some po) l ls (some vd) ?_
                rw [hbase]
                exact ih (some vd) _ seen h

theorem poLoop_vendorSO (rd : ℤ) (so : SpecialOrder) (ls : List Str) :
    ∀ (v : Option CurrentVendor) (inSO : Bool) (seen : List Str),
      so ∈ (poLoop rd v inSO seen ls).2 →
      ∃ i, i < ls.length ∧ ∃ vd : CurrentVendor,
        orElseV ((ls.take i).reverse.findSome? parseVendorLinePO) v = some vd ∧
        parseSpecialOrderLine (ls.getD i []) vd = some so := by
  induction ls with
  | nil => intro v inSO seen h; cases h
  | cons l ls ih =>
    intro v inSO seen h
    simp only [poLoop] at h
    cases hv : parseVendorLinePO l with
    | some w =>
      rw [hv] at h
      try dsimp only at h
      refine stepExists parseVendorLinePO (fun line vd => parseSpecialOrderLine line vd = some so) l ls v ?_
      rw [hv]
      exact ih (some w) false seen h
    | none =>
      rw [hv] at h
      try dsimp only at h
      have hbase : orElseV (parseVendorLinePO l) v = v := by rw [hv]; rfl
      by_cases hso : isSpecialOrderHeader l = true
      · rw [if_pos hso] at h
        refine stepExists parseVendorLinePO (fun line vd => parseSpecialOrderLine line vd = some so) l ls v ?_
        rw [hbase]
        exact ih v true seen h
      · rw [if_neg hso] at h
        by_cases hemp : (trim l).isEmpty = true
        · rw [if_pos hemp] at h
          refine stepExists parseVendorLinePO (fun line vd => parseSpecialOrderLine line vd = some so) l ls v ?_
          rw [hbase]
          exact ih v inSO seen h
        · rw [if_neg hemp] at h
          cases v with
          | none =>
            try dsimp only at h
            refine stepExists parseVendorLinePO (fun line vd => parseSpecialOrderLine line vd = some so) l ls none ?_
            rw [hbase]
            exact ih none _ seen h
          | some vd =>
            try dsimp only at h
            by_cases hpd : isPODataLine l = true
            · rw [if_pos hpd] at h
              cases hp : parsePOLine l vd rd with
              | some po2 =>
                rw [hp] at h
                try dsimp only at h
                by_cases hc : po2.poNumber ∈ seen
                · rw [if_pos hc] at h
                  refine stepExists parseVendorLinePO (fun line vd => parseSpecialOrderLine line vd = some so) l ls (some vd) ?_
                  rw [hbase]
                  exact ih (some vd) _ seen h
                · rw [if_neg hc] at h
                  try dsimp only at h
                  refine stepExists parseVendorLinePO (fun line vd => parseSpecialOrderLine line vd = some so) l ls (some vd) ?_
                  rw [hbase]
                  exact ih (some vd) _ _ h
              | none =>
                rw [hp] at h
                try dsimp only at h
                refine stepExists parseVendorLinePO (fun line vd => parseSpecialOrderLine line vd = some so) l ls (some vd) ?_
                rw [hbase]
                exact ih (some vd) _ seen h
            · rw [if_neg hpd] at h
              by_cases hin :
                  (inSO && !(vndSubTotPat l || casesColonPat l || prodUntPat l)) = true
              · rw [if_pos hin] at h
                cases hsp : parseSpecialOrderLine l vd with
                | some so2 =>
                  rw [hsp] at h
                  try dsimp only at h
                  rcases List.mem_cons.mp h with rfl | h2
                  · exact ⟨0, by simp, vd, rfl, hsp⟩
                  · refine stepExists parseVendorLinePO (fun line vd => parseSpecialOrderLine line vd = some so) l ls (some vd) ?_
                    rw [hbase]
                    exact ih (some vd) _ seen h2
                | none =>
                  rw [hsp] at h
                  try dsimp only at h
                  refine stepExists parseVendorLinePO (fun line vd => parseSpecialOrderLine line vd = some so) l ls (some vd) ?_
                  rw [hbase]
                  exact ih (some vd) _ seen h
              · rw [if_neg hin] at h
                refine stepExists parseVendorLinePO (fun line vd => parseSpecialOrderLine line vd = some so) l ls (some vd) ?_
                rw [hbase]
                exact ih (some vd) _ seen h

/-- C7: every emitted item, purchase-order, and special-order record
carries the vendor id and name extracted from the nearest preceding
vendor-header line of its source line, and no record is emitted without a
preceding vendor header. -/
theorem vendorAttribution (text : Str) :
    (∀ it ∈ (parseAllLines text).1,
      ∃ i, i < (splitNL text).length ∧ ∃ vd : CurrentVendor,
        nearestVendorItem (splitNL text) i = some vd ∧
        it.vendorId = vd.id ∧ it.vendorName = vd.name ∧
        isItemLine ((splitNL text).getD i []) = true ∧
        it = parseItemLine ((splitNL text).getD i []) vd) ∧
    (∀ rd : ℤ, ∀ po ∈ (parseAllPOs rd text).1,
      ∃ i, i < (splitNL text).length ∧ ∃ vd : CurrentVendor,
        nearestVendorPO (splitNL text) i = some vd ∧
        po.vendorId = vd.id ∧ po.vendorName = vd.name ∧
        isPODataLine ((splitNL text).getD i []) = true ∧
        parsePOLine ((splitNL text).getD i []) vd rd = some po) ∧
    (∀ rd : ℤ, ∀ so ∈ (parseAllPOs rd text).2,
      ∃ i, i < (splitNL text).length ∧ ∃ vd : CurrentVendor,
        nearestVendorPO (splitNL text) i = some vd ∧
        so.vendorId = vd.id ∧ so.vendorName = vd.name ∧
        parseSpecialOrderLine ((splitNL text).getD i []) vd = some so) := by
  refine ⟨?_, ?_, ?_⟩
  · intro it hit
    obtain ⟨i, hi, vd, hnv, hitem, rfl⟩ :=
      itemLoop_vendor it (splitNL text) none 0 hit
    rw [orElseV_none] at hnv
    exact ⟨i, hi, vd, hnv, parseItemLine_vendorId _ vd,
      parseItemLine_vendorName _ vd, hitem, rfl⟩
  · intro rd po hpo
    obtain ⟨i, hi, vd, hnv, hpd, hp⟩ :=
      poLoop_vendorPO rd po (splitNL text) none false [] hpo
    rw [orElseV_none] at hnv
    obtain ⟨h1, h2⟩ := parsePOLine_vendorFields _ vd rd po hp
    exact ⟨i, hi, vd, hnv, h1, h2, hpd, hp⟩
  · intro rd so hso
    obtain ⟨i, hi, vd, hnv, hp⟩ :=
      poLoop_vendorSO rd so (splitNL text) none false [] hso
    rw [orElseV_none] at hnv
    obtain ⟨h1, h2⟩ := parseSpecialOrderLine_vendorFields _ vd so hp
    exact ⟨i, hi, vd, hnv, h1, h2, hp⟩

theorem vendorAttribution_witness :
    exItem1 ∈ (parseAllLines exText).1 ∧
    (∃ i, i < (splitNL exText).length ∧ ∃ vd : CurrentVendor,
      nearestVendorItem (splitNL exText) i = some vd ∧
      exItem1.vendorId = vd.id ∧ exItem1.vendorName = vd.name ∧
      isItemLine ((splitNL exText).getD i []) = true ∧
      exItem1 = parseItemLine ((splitNL exText).getD i []) vd) ∧
    exPO1 ∈ (parseAllPOs exReportDay exText).1 ∧
    (∃ i, i < (splitNL exText).length ∧ ∃ vd : CurrentVendor,
      nearestVendorPO (splitNL exText) i = some vd ∧
      exPO1.vendorId = vd.id ∧ exPO1.vendorName = vd.name ∧
      isPODataLine ((splitNL exText).getD i []) = true ∧
      parsePOLine ((splitNL exText).getD i []) vd exReportDay = some exPO1) ∧
    exSO1 ∈ (parseAllPOs exReportDay exText).2 ∧
    (∃ i, i < (splitNL exText).length ∧ ∃ vd : CurrentVendor,
      nearestVendorPO (splitNL exText) i = some vd ∧
      exSO1.vendorId = vd.id ∧ exSO1.vendorName = vd.name ∧
      parseSpecialOrderLine ((splitNL exText).getD i []) vd = some exSO1) := by
  have hit : exItem1 ∈ (parseAllLines exText).1 := by
    rw [show (parseAllLines exText).1 = [exItem1] from rfl]
    exact List.mem_singleton_self _
  have hpo : exPO1 ∈ (parseAllPOs exReportDay exText).1 := by decide
  have hso : exSO1 ∈ (parseAllPOs exReportDay exText).2 := by decide
  exact ⟨hit, (vendorAttribution exText).1 exItem1 hit,
    hpo, (vendorAttribution exText).2.1 exReportDay exPO1 hpo,
    hso, (vendorAttribution exText).2.2 exReportDay exSO1 hso⟩

/-! ### PO data-line classification (C9) -/

theorem isPrefixCI_length (p : Str) :
    ∀ l : Str, isPrefixCI p l = true → p.length ≤ l.length := by
  induction p with
  | nil => intro l _; simp
  | cons c cs ih =>
    intro l h
    cases l with
    | nil => simp [isPrefixCI] at h
    | cons d ds =>
      simp only [isPrefixCI, Bool.and_eq_true] at h
      simpa using ih ds h.2

theorem isPrefixCI_contains (p t : Str) (h : isPrefixCI p t = true) :
    containsCI p t = true := by
  cases t with
  | nil =>
    cases p with
    | nil => rfl
    | cons c cs => simp [isPrefixCI] at h
  | cons c cs => simp [containsCI, h]

theorem prefixCI_space (pat : Str) (hsp : ∀ c ∈ pat, lowerEq c ' ' = false) :
    ∀ (x b : Str),
      isPrefixCI pat (x ++ ' ' :: b) =
        (isPrefixCI pat x && decide (pat.length ≤ x.length)) := by
  induction pat with
  | nil => intro x b; simp [isPrefixCI]
  | cons p ps ih =>
    intro x b
    cases x with
    | nil =>
      simp only [List.nil_append, isPrefixCI]
      rw [hsp p (List.mem_cons_self p ps)]
      simp
    | cons d xs =>
      show (lowerEq p d && isPrefixCI ps (xs ++ ' ' :: b)) = _
      rw [ih (fun c hc => hsp c (List.mem_cons_of_mem p hc)) xs b]
      show _ = (lowerEq p d && isPrefixCI ps xs && decide (ps.length + 1 ≤ xs.length + 1))
      by_cases hd : lowerEq p d = true
      · simp [hd, Bool.and_assoc, Nat.succ_le_succ_iff]
      · simp only [Bool.not_eq_true] at hd
        simp [hd]

theorem containsCI_space (pat : Str) (hne : pat ≠ [])
    (hsp : ∀ c ∈ pat, lowerEq c ' ' = false) :
    ∀ (a b : Str),
      containsCI pat (a ++ ' ' :: b) = (containsCI pat a || containsCI pat b) := by
  intro a
  induction a with
  | nil =>
    intro b
    cases pat with
    | nil => exact absurd rfl hne
    | cons p ps =>
      simp only [List.nil_append, containsCI, isPrefixCI]
      rw [hsp p (List.mem_cons_self p ps)]
      simp
  | cons d a2 ih =>
    intro b
    show (isPrefixCI pat ((d :: a2) ++ ' ' :: b) ||
          containsCI pat (a2 ++ ' ' :: b)) = _
    rw [ih b, prefixCI_space pat hsp (d :: a2) b]
    cases hP : isPrefixCI pat (d :: a2) with
    | false => simp [containsCI, hP]
    | true =>
      have hle : pat.length ≤ (d :: a2).length := isPrefixCI_length pat _ hP
      simp only [containsCI, hP]
      simp
      exact Or.inl (by simpa using hle)

theorem containsCI_joinSp (pat : Str) (hne : pat ≠ [])
    (hsp : ∀ c ∈ pat, lowerEq c ' ' = false) :
    ∀ ts : List Str,
      containsCI pat (joinSp ts) = ts.any (fun t => containsCI pat t) := by
  intro ts
  induction ts with
  | nil =>
    cases pat with
    | nil => exact absurd rfl hne
    | cons p ps => simp [joinSp, containsCI]
  | cons t ts ih =>
    cases ts with
    | nil => simp [joinSp]
    | cons u ts2 =>
      have hj : joinSp (t :: u :: ts2) = t ++ ' ' :: joinSp (u :: ts2) := rfl
      rw [hj, containsCI_space pat hne hsp, ih]
      simp

theorem dropWhile_head_false (p : Char → Bool) (l : Str) :
    ∀ c cs, l.dropWhile p = c :: cs → p c = false := by
  induction l with
  | nil => intro c cs h; simp at h
  | cons a as ih =>
    intro c cs h
    by_cases ha : p a = true
    · rw [List.dropWhile_cons_of_pos ha] at h
      exact ih c cs h
    · rw [List.dropWhile_cons_of_neg ha] at h
      obtain ⟨rfl, -⟩ := List.cons.inj h
      simpa using ha

theorem trim_head_not_ws (l : Str) (c : Char) (cs : Str) (h : trim l = c :: cs) :
    isWS c = false := by
  unfold trim at h
  exact dropWhile_head_false isWS _ c cs h

theorem wordsF_fuel (f1 : ℕ) :
    ∀ (l : Str) (f2 : ℕ), l.length ≤ f1 → l.length ≤ f2 →
      wordsF f1 l = wordsF f2 l := by
  induction f1 with
  | zero =>
    intro l f2 h1 _
    have : l = [] := List.length_eq_zero.mp (Nat.le_zero.mp h1)
    subst this
    cases f2 <;> rfl
  | succ f ih =>
    intro l f2 h1 h2
    cases l with
    | nil => cases f2 <;> rfl
    | cons c cs =>
      cases f2 with
      | zero => simp at h2
      | succ f2' =>
        simp only [wordsF]
        split_ifs
        · exact ih cs f2' (by simpa using h1) (by simpa using h2)
        · have hd : ((c :: cs).dropWhile (fun d => !isWS d)).length ≤ cs.length := by
            have hcd : (fun d => !isWS d) c = true := by
              simp_all
            rw [@List.dropWhile_cons_of_pos Char (fun d => !isWS d) c cs hcd]
            exact (List.dropWhile_sublist _).length_le
          rw [ih _ f2' (le_trans hd (by simpa using h1))
            (le_trans hd (by simpa using h2))]

theorem words_cons_not_ws (c : Char) (cs : Str) (hc : isWS c = false) :
    words (c :: cs) =
      ((c :: cs).takeWhile (fun d => !isWS d)) ::
        words ((c :: cs).dropWhile (fun d => !isWS d)) := by
  show wordsF (c :: cs).length (c :: cs) = _
  simp only [List.length_cons, wordsF, hc]
  rw [if_neg (by simp [hc])]
  have hd : ((c :: cs).dropWhile (fun d => !isWS d)).length ≤ cs.length := by
    rw [@List.dropWhile_cons_of_pos Char (fun d => !isWS d) c cs (by simp [hc])]
    exact (List.dropWhile_sublist _).length_le
  rw [wordsF_fuel cs.length _ _ hd (le_refl _)]
  rfl

theorem startsWith5dWS_of_tokens (u : Str)
    (h2 : 2 ≤ (words u).length)
    (h5 : is5Digits (tokAt (words u) 0) = true)
    (hhead : ∀ c cs, u = c :: cs → isWS c = false) :
    startsWith5dWS u = true := by
  rcases u with _ | ⟨c, cs⟩
  case nil => exact absurd h2 (by decide)
  case cons =>
    have hc : isWS c = false := hhead c cs rfl
    rw [words_cons_not_ws c cs hc] at h2 h5
    set T := (c :: cs).takeWhile (fun d => !isWS d) with hT
    set D := (c :: cs).dropWhile (fun d => !isWS d) with hD
    have hsplit : c :: cs = T ++ D := (List.takeWhile_append_dropWhile _ _).symm
    have hT0 : tokAt (T :: words D) 0 = T := rfl
    rw [hT0] at h5
    simp only [is5Digits, Bool.and_eq_true, decide_eq_true_eq] at h5
    obtain ⟨hT5, hTd⟩ := h5
    have hDne : D ≠ [] := by
      intro hnil
      rw [hnil] at h2
      simp [words, wordsF] at h2
    rcases hDe : D with _ | ⟨d, ds⟩
    · exact absurd hDe hDne
    · have hdws : isWS d = true := by
        have := dropWhile_head_false (fun d => !isWS d) (c :: cs) d ds (hD ▸ hDe)
        simpa using this
      simp only [startsWith5dWS, Bool.and_eq_true, decide_eq_true_eq]
      rw [hsplit, hDe]
      rw [List.take_left' hT5, List.drop_left' hT5]
      exact ⟨⟨hT5, hTd⟩, hdws⟩

theorem drop3_head (tokens : List Str) (h : 4 ≤ tokens.length) :
    tokens.drop 3 = tokAt tokens 3 :: tokens.drop 4 := by
  have h3 : 3 < tokens.length := by omega
  rw [List.drop_eq_getElem_cons h3]
  congr 1
  simp [tokAt, List.getD_eq_getElem?_getD, List.getElem?_eq_getElem h3]

theorem confPat_no_space : ∀ c ∈ ("Conf:".toList), lowerEq c ' ' = false := by
  decide

theorem confPat_ne_nil : ("Conf:".toList) ≠ [] := by decide

/-- C9 (amended): a line is classified as a PO data line exactly when it
has at least four tokens, a five-digit first token, a date-shaped second
token, a case-count token of one to five digits, and either some token
past the case count contains a Conf marker, the whole line contains at
least three date-shaped substrings, or it contains a time-of-day
substring. -/
theorem poDataLineAmended (line : Str) :
    isPODataLine line = true ↔ amendedPODataLine line = true := by
  simp only [isPODataLine, amendedPODataLine]
  constructor
  · intro h
    by_cases h1 : startsWith5dWS (trim line) = true
    case neg =>
      rw [if_pos (by simp [Bool.not_eq_true] at h1 ⊢; exact h1)] at h
      exact absurd h (by simp)
    rw [if_neg (by simp [h1])] at h
    by_cases hlen : (words (trim line)).length < 4
    case pos => rw [if_pos hlen] at h; exact absurd h (by simp)
    rw [if_neg hlen] at h
    by_cases h5 : is5Digits (tokAt (words (trim line)) 0) = true
    case neg =>
      rw [if_pos (by simp [Bool.not_eq_true] at h5 ⊢; exact h5)] at h
      exact absurd h (by simp)
    rw [if_neg (by simp [h5])] at h
    by_cases hd1 : isDateShapeTok (tokAt (words (trim line)) 1) = true
    case neg =>
      rw [if_pos (by simp [Bool.not_eq_true] at hd1 ⊢; exact hd1)] at h
      exact absurd h (by simp)
    rw [if_neg (by simp [hd1])] at h
    by_cases hi2 : isInt1to5 (tokAt (words (trim line)) 2) = true
    case neg =>
      rw [if_pos (by simp [Bool.not_eq_true] at hi2 ⊢; exact hi2)] at h
      exact absurd h (by simp)
    rw [if_neg (by simp [hi2])] at h
    have hdisj :
        (((words (trim line)).drop 3).any (containsCI ("Conf:".toList)) ||
         decide (3 ≤ (scanDates (trim line)).length) ||
         decide (1 ≤ (scanTimes (trim line)).length)) = true := by
      by_cases hb1 : isPrefixCI ("Conf:".toList) (tokAt (words (trim line)) 3) = true
      · have hmem : containsCI ("Conf:".toList) (tokAt (words (trim line)) 3) = true :=
          isPrefixCI_contains _ _ hb1
        have hany : ((words (trim line)).drop 3).any
            (containsCI ("Conf:".toList)) = true := by
          rw [drop3_head _ (by omega)]
          simp only [List.any_cons]
          rw [hmem]
          simp
        rw [hany]
        simp
      · rw [if_neg hb1] at h
        by_cases hb2 :
            containsCI ("Conf:".toList) (joinSp ((words (trim line)).drop 3)) = true
        · rw [containsCI_joinSp _ confPat_ne_nil confPat_no_space] at hb2
          rw [hb2]
          simp
        · rw [if_neg hb2] at h
          by_cases hb3 : 3 ≤ (scanDates (trim line)).length
          · simp [hb3]
          · rw [if_neg (by simpa using hb3)] at h
            by_cases hb4 : 1 ≤ (scanTimes (trim line)).length
            · simp [hb4]
            · rw [if_neg (by simpa using hb4)] at h
              exact absurd h (by simp)
    simp only [Bool.and_eq_true, decide_eq_true_eq]
    exact ⟨⟨⟨⟨by omega, h5⟩, hd1⟩, hi2⟩, hdisj⟩
  · intro h
    simp only [Bool.and_eq_true, decide_eq_true_eq] at h
    obtain ⟨⟨⟨⟨hlen, h5⟩, hd1⟩, hi2⟩, hdisj⟩ := h
    have h1 : startsWith5dWS (trim line) = true := by
      refine startsWith5dWS_of_tokens (trim line) (by omega) h5 ?_
      intro c cs hc
      exact trim_head_not_ws line c cs hc
    rw [if_neg (by simp [h1]), if_neg (by omega), if_neg (by simp [h5]),
      if_neg (by simp [hd1]), if_neg (by simp [hi2])]
    by_cases hb1 : isPrefixCI ("Conf:".toList) (tokAt (words (trim line)) 3) = true
    · rw [if_pos hb1]
    · rw [if_neg hb1]
      by_cases hb2 :
          containsCI ("Conf:".toList) (joinSp ((words (trim line)).drop 3)) = true
      · rw [if_pos hb2]
      · rw [if_neg hb2]
        rcases (Bool.or_eq_true _ _).mp hdisj with hor | hb4
        · rcases (Bool.or_eq_true _ _).mp hor with hany | hb3
          · refine absurd ?_ hb2
            rw [containsCI_joinSp _ confPat_ne_nil confPat_no_space]
            exact hany
          · rw [if_pos hb3]
        · by_cases hb3 : decide (3 ≤ (scanDates (trim line)).length) = true
          · rw [if_pos hb3]
          · rw [if_neg hb3, if_pos hb4]

/-- C9 (counterexample): a line with a five-digit first token, a
date-shaped due date, an integer case count, and one additional
date-shaped token satisfies the claim's check, but the source rejects it —
one extra date is not enough for its three-date threshold, it has no time
substring, and no Conf marker. -/
theorem poDataLineClaimFalse :
    claimPODataLine exC9Line = true ∧ isPODataLine exC9Line = false :=
  ⟨by decide, by decide⟩

end SueParse
